import Mathlib

set_option maxRecDepth 100000

/-!
Shallow embedding of the FS100 High Speed Ethernet client (fs100.py) and
proofs about its packet handling, transmission discipline, variable
marshalling, batched variable reads, file transfer and motion sequencing.

Byte strings are modelled as `List Nat` (each entry one octet).  Python
`struct` packing/unpacking is modelled by explicit little-endian arithmetic;
a Python exception escaping a function is modelled by `Except`/`Option`
failure values.
-/

namespace FS100Spec

/-- Little-endian byte pair of a 16-bit value, as produced by struct.pack
with format <H. -/
def u16le (n : Nat) : List Nat := [n % 256, n / 256 % 256]

/-- Little-endian byte quadruple of a 32-bit value, as produced by
struct.pack with format <I. -/
def u32le (n : Nat) : List Nat :=
  [n % 256, n / 256 % 256, n / 65536 % 256, n / 16777216 % 256]

/-- Little-endian value of a byte list (struct.unpack of <H / <I on a slice
of the right width). -/
def leNat (bs : List Nat) : Nat := bs.foldr (fun b acc => b + 256 * acc) 0

/-- Two's-complement encoding of a signed value into w bits (the byte image
struct.pack of <h / <i produces before serialisation). -/
def toTwos (w : Nat) (n : Int) : Nat := (n % ((2 : Int) ^ w)).toNat

/-- Two's-complement reading of a w-bit unsigned value as a signed value
(struct.unpack of <h / <i). -/
def fromTwos (w : Nat) (m : Nat) : Int :=
  if m < 2 ^ (w - 1) then (m : Int) else (m : Int) - (2 : Int) ^ w

/-- FS100.ERROR_SUCCESS -/
def ERROR_SUCCESS : Nat := 0

/-- FS100.ERROR_CONNECTION -/
def ERROR_CONNECTION : Nat := 1

/-- FS100.TRANSMISSION_SEND: packet is sent and no reply is awaited. -/
def TRANSMISSION_SEND : Nat := 1

/-- FS100.TRANSMISSION_SEND_AND_RECV: packet is sent and one datagram is
received as the answer. -/
def TRANSMISSION_SEND_AND_RECV : Nat := 2

/-- FS100AnsPacket: the fields FS100AnsPacket.__init__ extracts from a raw
answer datagram. -/
structure AnsPacket where
  data_size : Nat
  division : Nat
  ack : Nat
  req_id : Nat
  block_no : Nat
  service : Nat
  status : Nat
  added_status_size : Nat
  added_status : Nat
  data : List Nat
deriving DecidableEq, Repr

/-- FS100AnsPacket.__init__ (together with the FS100PacketHeader.__init__ it
calls): data_size from bytes 6..7, division byte 9, ack byte 10, req_id
byte 11, block_no bytes 12..15, service byte 24, status byte 25,
added_status_size byte 26, added_status bytes 28..29, data the data_size
bytes from offset 32 (HEADER_SIZE).  Every struct.unpack in the constructor
needs its slice complete; the furthest slice read is packet[28:30], so
construction raises struct.error for datagrams shorter than 30 bytes,
modelled as `none`. -/
def ansPacketOfBytes (packet : List Nat) : Option AnsPacket :=
  if packet.length < 30 then none
  else
    let ds := leNat ((packet.drop 6).take 2)
    some { data_size := ds
           division := packet.getD 9 0
           ack := packet.getD 10 0
           req_id := packet.getD 11 0
           block_no := leNat ((packet.drop 12).take 4)
           service := packet.getD 24 0
           status := packet.getD 25 0
           added_status_size := packet.getD 26 0
           added_status := leNat ((packet.drop 28).take 2)
           data := (packet.drop 32).take ds }

/-- FS100._generate_error_ans_packet: 25 zero bytes, the result byte, 2 zero
bytes, the 16-bit error number little-endian, 2 zero bytes (32 bytes in
total).  struct.pack of <H constrains errno below 65536; the theorems carry
that bound as a hypothesis. -/
def generate_error_ans_packet (result errno : Nat) : List Nat :=
  List.replicate 25 0 ++ [result] ++ List.replicate 2 0 ++ u16le errno ++ List.replicate 2 0

/-- Outcome of the socket send/recv inside one FS100._transmit call: either
the datagram recvfrom returned, or a socket.error (raised by sendall or
recvfrom, a timeout included) whose errno attribute may be None. -/
inductive SockResult where
  | ok (datagram : List Nat)
  | err (errno : Option Nat)
deriving DecidableEq, Repr

deriving instance DecidableEq for Except

/-- Result of one FS100._transmit call together with the net change in the
calling thread's hold count on the class-wide reentrant transmission lock.
`result = Except.error _` models an exception escaping _transmit. -/
structure TransmitOut where
  result : Except String (Option AnsPacket)
  lockDelta : Nat
deriving DecidableEq, Repr

/-- FS100._transmit.  The lock is acquired on entry; socket errors from
sendall/recvfrom are caught and replaced by a synthesized error answer built
by _generate_error_ans_packet.  The FS100AnsPacket construction happens
after the try/except block (whose finally clause is `pass`) and outside any
handler, so a datagram its struct.unpack calls reject makes the exception
escape _transmit with the lock still held (lockDelta 1); on every other
path the final release brings the hold count back (lockDelta 0). -/
def transmit (behavior : SockResult) (direction : Nat) : TransmitOut :=
  let ansPacketBytes : List Nat :=
    match behavior with
    | .ok datagram => datagram
    | .err e => generate_error_ans_packet ERROR_CONNECTION (e.getD ERROR_CONNECTION)
  if direction = TRANSMISSION_SEND_AND_RECV then
    match ansPacketOfBytes ansPacketBytes with
    | some ans => { result := .ok (some ans), lockDelta := 0 }
    | none => { result := .error "struct.error in FS100AnsPacket", lockDelta := 1 }
  else
    { result := .ok none, lockDelta := 0 }

theorem generate_error_ans_packet_eq (r e : Nat) :
    generate_error_ans_packet r e =
      [0, 0, 0, 0, 0, 0, 0, 0, 0, 0, 0, 0, 0, 0, 0, 0, 0, 0, 0, 0, 0, 0, 0, 0, 0,
       r, 0, 0, e % 256, e / 256 % 256, 0, 0] := rfl

theorem ansPacketOfBytes_generate_error (r e : Nat) (he : e < 65536) :
    ansPacketOfBytes (generate_error_ans_packet r e) =
      some { data_size := 0, division := 0, ack := 0, req_id := 0, block_no := 0
             service := 0, status := r, added_status_size := 0
             added_status := e, data := [] } := by
  rw [generate_error_ans_packet_eq]
  simp [ansPacketOfBytes, leNat]
  omega

/-- C1: for a transmission expecting a reply, any socket failure (send or
receive, timeouts included) makes _transmit return a synthesized answer with
status ERROR_CONNECTION and added_status the platform errno (or
ERROR_CONNECTION itself when the platform gives none), produced by running
the synthesized packet through the same FS100AnsPacket decoding path as a
real reply, with the lock released. -/
theorem transmit_error_synthesizes_connection_answer (e : Option Nat)
    (he : e.getD ERROR_CONNECTION < 65536) :
    ∃ a : AnsPacket,
      ansPacketOfBytes (generate_error_ans_packet ERROR_CONNECTION (e.getD ERROR_CONNECTION)) =
        some a ∧
      transmit (.err e) TRANSMISSION_SEND_AND_RECV =
        { result := .ok (some a), lockDelta := 0 } ∧
      a.status = ERROR_CONNECTION ∧
      a.added_status = e.getD ERROR_CONNECTION := by
  refine ⟨{ data_size := 0, division := 0, ack := 0, req_id := 0, block_no := 0
            service := 0, status := ERROR_CONNECTION, added_status_size := 0
            added_status := e.getD ERROR_CONNECTION, data := [] },
          ansPacketOfBytes_generate_error _ _ he, ?_, rfl, rfl⟩
  simp [transmit, TRANSMISSION_SEND_AND_RECV, ansPacketOfBytes_generate_error _ _ he]

theorem transmit_error_synthesizes_connection_answer_witness :
    ∃ a : AnsPacket,
      ansPacketOfBytes (generate_error_ans_packet ERROR_CONNECTION
        ((some 111).getD ERROR_CONNECTION)) = some a ∧
      transmit (.err (some 111)) TRANSMISSION_SEND_AND_RECV =
        { result := .ok (some a), lockDelta := 0 } ∧
      a.status = ERROR_CONNECTION ∧
      a.added_status = (some 111).getD ERROR_CONNECTION :=
  transmit_error_synthesizes_connection_answer (some 111) (by decide)

/-- C8 (evidence for the code bug): when the received datagram is shorter
than the 30 bytes FS100AnsPacket parsing reads, the exception raised by the
constructor escapes _transmit before the lock release is reached, so the
calling thread's hold count on the transmission lock stays one above its
entry value; on a well-formed datagram the hold count is restored. -/
theorem transmit_short_datagram_keeps_lock_held :
    transmit (.ok (List.replicate 10 0)) TRANSMISSION_SEND_AND_RECV =
      { result := .error "struct.error in FS100AnsPacket", lockDelta := 1 } ∧
    (transmit (.ok (List.replicate 32 0)) TRANSMISSION_SEND_AND_RECV).lockDelta = 0 := by
  decide

/-- The while-loop of FS100.recv_file.  `script` is the sequence of parsed
controller answers consumed, one per transmit that expects a reply
(synthesized connection-error answers included); `finalSend` is the socket
behavior of the final send-only acknowledgment.  The loop appends each
successful answer's data to the accumulator; on an answer whose block
number carries bit 31 it performs the final TRANSMISSION_SEND transmit and
stops.  Returns (status, assembled file content on success); `none` models
a script that ends before the loop does, or an escaping exception. -/
def recvFileLoop (finalSend : SockResult) :
    List AnsPacket → List Nat → AnsPacket → Option (Nat × Option (List Nat))
  | [], context, ans =>
    if ans.status ≠ ERROR_SUCCESS then some (ans.status, none)
    else
      if ans.block_no &&& 0x80000000 ≠ 0 then
        match (transmit finalSend TRANSMISSION_SEND).result with
        | .ok _ => some (ans.status, some (context ++ ans.data))
        | .error _ => none
      else none
  | a :: rest, context, ans =>
    if ans.status ≠ ERROR_SUCCESS then some (ans.status, none)
    else
      if ans.block_no &&& 0x80000000 ≠ 0 then
        match (transmit finalSend TRANSMISSION_SEND).result with
        | .ok _ => some (ans.status, some (context ++ ans.data))
        | .error _ => none
      else recvFileLoop finalSend rest (context ++ ans.data) a

/-- FS100.recv_file after the local-directory check: the initial filename
request consumes the first script answer, then the accumulate-and-ack loop
runs. -/
def recv_file (script : List AnsPacket) (finalSend : SockResult) :
    Option (Nat × Option (List Nat)) :=
  match script with
  | [] => none
  | a :: rest => recvFileLoop finalSend rest [] a

/-- Helper of splitLines carrying the current line in reverse. -/
def splitLinesGo : List Nat → List Nat → List (List Nat)
  | [], cur => if cur.isEmpty then [] else [cur.reverse]
  | 13 :: 10 :: rest, cur => cur.reverse :: splitLinesGo rest []
  | 13 :: rest, cur => cur.reverse :: splitLinesGo rest []
  | 10 :: rest, cur => cur.reverse :: splitLinesGo rest []
  | b :: rest, cur => splitLinesGo rest (b :: cur)

/-- str.splitlines on the accumulated text, restricted to the LF, CR and
CRLF terminators occurring in controller file lists. -/
def splitLines (bs : List Nat) : List (List Nat) := splitLinesGo bs []

/-- The while-loop of FS100.get_file_list: identical accumulate-and-ack
shape to recv_file; on success the accumulated text is split into lines. -/
def getFileListLoop (finalSend : SockResult) :
    List AnsPacket → List Nat → AnsPacket → Option (Nat × Option (List (List Nat)))
  | [], raw, ans =>
    if ans.status ≠ ERROR_SUCCESS then some (ans.status, none)
    else
      if ans.block_no &&& 0x80000000 ≠ 0 then
        match (transmit finalSend TRANSMISSION_SEND).result with
        | .ok _ => some (ans.status, some (splitLines (raw ++ ans.data)))
        | .error _ => none
      else none
  | a :: rest, raw, ans =>
    if ans.status ≠ ERROR_SUCCESS then some (ans.status, none)
    else
      if ans.block_no &&& 0x80000000 ≠ 0 then
        match (transmit finalSend TRANSMISSION_SEND).result with
        | .ok _ => some (ans.status, some (splitLines (raw ++ ans.data)))
        | .error _ => none
      else getFileListLoop finalSend rest (raw ++ ans.data) a

/-- FS100.get_file_list: the initial extension request consumes the first
script answer, then the loop runs. -/
def get_file_list (script : List AnsPacket) (finalSend : SockResult) :
    Option (Nat × Option (List (List Nat))) :=
  match script with
  | [] => none
  | a :: rest => getFileListLoop finalSend rest [] a

theorem transmit_send_only (b : SockResult) :
    transmit b TRANSMISSION_SEND = { result := .ok none, lockDelta := 0 } := by
  cases b <;> rfl

theorem recvFileLoop_finalSend_irrelevant (b1 b2 : SockResult) :
    ∀ (script : List AnsPacket) (context : List Nat) (ans : AnsPacket),
      recvFileLoop b1 script context ans = recvFileLoop b2 script context ans := by
  intro script
  induction script with
  | nil =>
    intro context ans
    simp only [recvFileLoop, transmit_send_only]
  | cons a rest ih =>
    intro context ans
    simp only [recvFileLoop, transmit_send_only]
    split
    · rfl
    · split
      · rfl
      · exact ih _ _

theorem getFileListLoop_finalSend_irrelevant (b1 b2 : SockResult) :
    ∀ (script : List AnsPacket) (raw : List Nat) (ans : AnsPacket),
      getFileListLoop b1 script raw ans = getFileListLoop b2 script raw ans := by
  intro script
  induction script with
  | nil =>
    intro raw ans
    simp only [getFileListLoop, transmit_send_only]
  | cons a rest ih =>
    intro raw ans
    simp only [getFileListLoop, transmit_send_only]
    split
    · rfl
    · split
      · rfl
      · exact ih _ _

/-- A successful non-terminal data answer used in the C10 demonstration. -/
def demoRecvAns1 : AnsPacket :=
  { data_size := 2, division := 2, ack := 1, req_id := 0, block_no := 1
    service := 0x16, status := 0, added_status_size := 0, added_status := 0
    data := [65, 66] }

/-- The terminal data answer (bit 31 set) used in the C10 demonstration. -/
def demoRecvAnsT : AnsPacket :=
  { data_size := 2, division := 2, ack := 1, req_id := 0
    block_no := 2 ||| 0x80000000
    service := 0x16, status := 0, added_status_size := 0, added_status := 0
    data := [67, 68] }

/-- C10: a transmit that expects no reply returns None whatever the socket
does, with the lock released; hence recv_file and get_file_list are
insensitive to the socket behavior of their final send-only acknowledgment,
and a socket error on that final send leaves the returned status (and the
assembled content) of the preceding successful exchange untouched. -/
theorem send_direction_swallows_socket_errors :
    (∀ b : SockResult,
        transmit b TRANSMISSION_SEND = { result := .ok none, lockDelta := 0 }) ∧
    (∀ (script : List AnsPacket) (b1 b2 : SockResult),
        recv_file script b1 = recv_file script b2) ∧
    (∀ (script : List AnsPacket) (b1 b2 : SockResult),
        get_file_list script b1 = get_file_list script b2) ∧
    recv_file [demoRecvAns1, demoRecvAnsT] (.err (some 32)) =
      some (ERROR_SUCCESS, some [65, 66, 67, 68]) := by
  refine ⟨transmit_send_only, ?_, ?_, by decide⟩
  · intro script b1 b2
    cases script with
    | nil => rfl
    | cons a rest => exact recvFileLoop_finalSend_irrelevant b1 b2 rest [] a
  · intro script b1 b2
    cases script with
    | nil => rfl
    | cons a rest => exact getFileListLoop_finalSend_irrelevant b1 b2 rest [] a

/-- A packet transmitted by send_file: its data payload, the block number
carried in its header, and the transmission direction used. -/
structure SentPacket where
  data : List Nat
  block_no : Nat
  direction : Nat
deriving DecidableEq, Repr

/-- FS100.send_file's CHUNK_SIZE. -/
def CHUNK_SIZE : Nat := 400

/-- The controller model used by the send_file scenarios: every request is
acknowledged with status 0 and the block number the request carried echoed
back (the oracle is keyed by that block number; the filename request
carries block number 0). -/
def echoController (b : Nat) : AnsPacket :=
  { data_size := 0, division := 2, ack := 1, req_id := 0, block_no := b
    service := 0x15, status := 0, added_status_size := 0, added_status := 0
    data := [] }

/-- The while-loop of FS100.send_file.  `oracle` maps the block number a
transmitted packet carries to the controller's parsed answer; `ans` is the
answer to the previously transmitted packet; `block_no` the current block
counter.  Each iteration exits on a non-success answer or on an answer
whose block number carries bit 31; otherwise it increments the counter,
slices the next CHUNK_SIZE chunk out of the content (the final chunk takes
the rest and ORs bit 31 into its block number) and transmits it expecting a
reply.  Returns the loop's exit status together with the chunks transmitted
(in order); `fuel` bounds the number of iterations, `none` meaning it ran
out. -/
def sendFileLoop (oracle : Nat → AnsPacket) (context : List Nat)
    (ans : AnsPacket) (block_no : Nat) : Nat → Option (Nat × List SentPacket)
  | 0 => none
  | fuel + 1 =>
    if ans.status ≠ ERROR_SUCCESS then some (ans.status, [])
    else if ans.block_no &&& 0x80000000 ≠ 0 then some (ans.status, [])
    else
      if CHUNK_SIZE * (block_no + 1) ≥ context.length then
        (sendFileLoop oracle context (oracle ((block_no + 1) ||| 0x80000000))
            ((block_no + 1) ||| 0x80000000) fuel).map
          (fun r => (r.1,
            ⟨context.drop ((block_no + 1 - 1) * CHUNK_SIZE),
             (block_no + 1) ||| 0x80000000, TRANSMISSION_SEND_AND_RECV⟩ :: r.2))
      else
        (sendFileLoop oracle context (oracle (block_no + 1)) (block_no + 1) fuel).map
          (fun r => (r.1,
            ⟨(context.drop ((block_no + 1 - 1) * CHUNK_SIZE)).take CHUNK_SIZE,
             block_no + 1, TRANSMISSION_SEND_AND_RECV⟩ :: r.2))

/-- FS100.send_file after the file has been read into `context`: an empty
file raises ValueError before anything is transmitted; otherwise the bare
filename is transmitted first (block number 0, reply expected) and the
chunk loop runs with the answer to it. -/
def send_file (oracle : Nat → AnsPacket) (filename : List Nat)
    (context : List Nat) (fuel : Nat) :
    Except String (Option (Nat × List SentPacket)) :=
  if context.length = 0 then .error "An empty file"
  else
    .ok ((sendFileLoop oracle context (oracle 0) 0 fuel).map
      (fun r => (r.1, ⟨filename, 0, TRANSMISSION_SEND_AND_RECV⟩ :: r.2)))

/-- Closed form of the chunk sequence the send_file loop transmits for
nonempty content, starting after `bn` chunks have already been sent. -/
def chunkSpec (context : List Nat) (bn : Nat) : List SentPacket :=
  if CHUNK_SIZE * (bn + 1) ≥ context.length then
    [⟨context.drop (bn * CHUNK_SIZE), (bn + 1) ||| 0x80000000,
      TRANSMISSION_SEND_AND_RECV⟩]
  else
    ⟨(context.drop (bn * CHUNK_SIZE)).take CHUNK_SIZE, bn + 1,
      TRANSMISSION_SEND_AND_RECV⟩ :: chunkSpec context (bn + 1)
termination_by context.length - CHUNK_SIZE * bn
decreasing_by simp only [CHUNK_SIZE] at *; omega

theorem and_two_pow31_of_lt (n : Nat) (h : n < 2 ^ 31) : n &&& 2 ^ 31 = 0 := by
  have h2 := Nat.and_two_pow n 31
  rw [Nat.testBit_lt_two_pow h] at h2
  simpa using h2

theorem or_two_pow31_and (n : Nat) : (n ||| 2 ^ 31) &&& 2 ^ 31 = 2 ^ 31 := by
  have h1 : (n ||| 2 ^ 31).testBit 31 = true := by
    rw [Nat.testBit_or]
    simp only [Bool.or_eq_true]
    right
    decide
  have h2 := Nat.and_two_pow (n ||| 2 ^ 31) 31
  rw [h1] at h2
  simpa using h2

theorem sendFileLoop_echo (context : List Nat) (hL : context.length < 2 ^ 31) :
    ∀ (fuel b : Nat), CHUNK_SIZE * b < context.length →
      context.length + CHUNK_SIZE ≤ CHUNK_SIZE * (b + fuel) →
      b < 2 ^ 31 →
      sendFileLoop echoController context (echoController b) b fuel =
        some (ERROR_SUCCESS, chunkSpec context b) := by
  intro fuel
  induction fuel with
  | zero =>
    intro b h1 h2 h3
    exfalso
    simp only [CHUNK_SIZE] at h1 h2
    omega
  | succ fuel ih =>
    intro b h1 h2 h3
    have hpow : (0x80000000 : Nat) = 2 ^ 31 := by norm_num
    simp only [sendFileLoop]
    have hstat : ¬ ((echoController b).status ≠ ERROR_SUCCESS) := by
      simp [echoController, ERROR_SUCCESS]
    rw [if_neg hstat]
    have hblk : ¬ ((echoController b).block_no &&& 0x80000000 ≠ 0) := by
      show ¬ (b &&& 0x80000000 ≠ 0)
      rw [hpow, and_two_pow31_of_lt b h3]
      simp
    rw [if_neg hblk]
    by_cases hterm : CHUNK_SIZE * (b + 1) ≥ context.length
    · rw [if_pos hterm]
      cases fuel with
      | zero =>
        exfalso
        simp only [CHUNK_SIZE] at h1 h2
        omega
      | succ fuel2 =>
        simp only [sendFileLoop]
        have hstat2 : ¬ ((echoController ((b + 1) ||| 0x80000000)).status ≠ ERROR_SUCCESS) := by
          simp [echoController, ERROR_SUCCESS]
        rw [if_neg hstat2]
        have hblk2 : (echoController ((b + 1) ||| 0x80000000)).block_no &&& 0x80000000 ≠ 0 := by
          show ((b + 1) ||| 0x80000000) &&& 0x80000000 ≠ 0
          rw [hpow, or_two_pow31_and]
          positivity
        rw [if_pos hblk2]
        rw [chunkSpec, if_pos hterm]
        simp [echoController, ERROR_SUCCESS]
    · rw [if_neg hterm]
      push_neg at hterm
      have hb1 : b + 1 < 2 ^ 31 := by
        have h4 := hterm
        simp only [CHUNK_SIZE] at h4
        omega
      have hfuel2 : context.length + CHUNK_SIZE ≤ CHUNK_SIZE * (b + 1 + fuel) := by
        simp only [CHUNK_SIZE] at h2 ⊢
        omega
      rw [ih (b + 1) hterm hfuel2 hb1]
      conv_rhs => rw [chunkSpec]
      rw [if_neg (not_le.mpr hterm)]
      simp

theorem chunkSpec_ne_nil (context : List Nat) (b : Nat) : chunkSpec context b ≠ [] := by
  refine chunkSpec.induct context (fun b => chunkSpec context b ≠ []) ?_ ?_ b
  · intro b h
    rw [chunkSpec, if_pos h]
    simp
  · intro b h ih
    rw [chunkSpec, if_neg h]
    simp

theorem chunkSpec_flatten (context : List Nat) (b : Nat) :
    ((chunkSpec context b).map SentPacket.data).flatten =
      context.drop (b * CHUNK_SIZE) := by
  refine chunkSpec.induct context
    (fun b => ((chunkSpec context b).map SentPacket.data).flatten =
      context.drop (b * CHUNK_SIZE)) ?_ ?_ b
  · intro b h
    rw [chunkSpec, if_pos h]
    simp
  · intro b h ih
    rw [chunkSpec, if_neg h]
    simp only [List.map_cons, List.flatten_cons, ih]
    have hstep : (b + 1) * CHUNK_SIZE = b * CHUNK_SIZE + CHUNK_SIZE := by ring
    rw [hstep, ← List.drop_drop]
    exact List.take_append_drop CHUNK_SIZE (context.drop (b * CHUNK_SIZE))

theorem chunkSpec_last_bit (context : List Nat) (b : Nat) :
    ∀ p, (chunkSpec context b).getLast? = some p → p.block_no &&& 0x80000000 ≠ 0 := by
  have hpow : (0x80000000 : Nat) = 2 ^ 31 := by norm_num
  refine chunkSpec.induct context
    (fun b => ∀ p, (chunkSpec context b).getLast? = some p →
      p.block_no &&& 0x80000000 ≠ 0) ?_ ?_ b
  · intro b h p hp
    rw [chunkSpec, if_pos h] at hp
    simp only [List.getLast?_singleton, Option.some.injEq] at hp
    subst hp
    rw [hpow, or_two_pow31_and]
    positivity
  · intro b h ih p hp
    rw [chunkSpec, if_neg h] at hp
    obtain ⟨y, ys, hys⟩ := List.exists_cons_of_ne_nil (chunkSpec_ne_nil context (b + 1))
    rw [hys, List.getLast?_cons_cons, ← hys] at hp
    exact ih p hp

theorem chunkSpec_directions (context : List Nat) (b : Nat) :
    ∀ p ∈ chunkSpec context b, p.direction = TRANSMISSION_SEND_AND_RECV := by
  refine chunkSpec.induct context
    (fun b => ∀ p ∈ chunkSpec context b,
      p.direction = TRANSMISSION_SEND_AND_RECV) ?_ ?_ b
  · intro b h p hp
    rw [chunkSpec, if_pos h] at hp
    simp only [List.mem_singleton] at hp
    subst hp
    rfl
  · intro b h ih p hp
    rw [chunkSpec, if_neg h] at hp
    rcases List.mem_cons.mp hp with h1 | h2
    · subst h1; rfl
    · exact ih p h2

theorem chunkSpec_length (context : List Nat) (b : Nat)
    (hb : CHUNK_SIZE * b < context.length) :
    (chunkSpec context b).length =
      (context.length - CHUNK_SIZE * b + CHUNK_SIZE - 1) / CHUNK_SIZE := by
  refine chunkSpec.induct context
    (fun b => CHUNK_SIZE * b < context.length →
      (chunkSpec context b).length =
        (context.length - CHUNK_SIZE * b + CHUNK_SIZE - 1) / CHUNK_SIZE) ?_ ?_ b hb
  · intro b h hb2
    rw [chunkSpec, if_pos h]
    simp only [List.length_singleton]
    simp only [CHUNK_SIZE] at h hb2 ⊢
    omega
  · intro b h ih hb2
    have hlt : CHUNK_SIZE * (b + 1) < context.length := by
      simp only [CHUNK_SIZE] at h ⊢
      omega
    rw [chunkSpec, if_neg h]
    simp only [List.length_cons, ih hlt]
    simp only [CHUNK_SIZE] at hlt hb2 ⊢
    omega

/-- The UTF-8 bytes of the filename JOB.JBI used in the spec scenario. -/
def jbiName : List Nat := [74, 79, 66, 46, 74, 66, 73]

/-- A 950-byte file content. -/
def c950 : List Nat := (List.range 950).map (fun i => i % 256)

/-- An 800-byte (exact multiple of CHUNK_SIZE) file content. -/
def c800 : List Nat := (List.range 800).map (fun i => i % 256)

/-- C4 counterexample: for the 950-byte transfer with an acknowledging
controller, send_file transmits exactly the filename packet and three chunk
packets, every one of them with direction TRANSMISSION_SEND_AND_RECV (a
reply is expected); since TRANSMISSION_SEND_AND_RECV differs from
TRANSMISSION_SEND, the transfer is not terminated by a final
acknowledgment sent with no reply expected. -/
theorem send_file_950_sends_no_reply_free_ack :
    send_file echoController jbiName c950 8 =
      .ok (some (ERROR_SUCCESS,
        [⟨jbiName, 0, TRANSMISSION_SEND_AND_RECV⟩,
         ⟨c950.take 400, 1, TRANSMISSION_SEND_AND_RECV⟩,
         ⟨(c950.drop 400).take 400, 2, TRANSMISSION_SEND_AND_RECV⟩,
         ⟨c950.drop 800, 3 ||| 0x80000000, TRANSMISSION_SEND_AND_RECV⟩])) ∧
    TRANSMISSION_SEND_AND_RECV ≠ TRANSMISSION_SEND := by
  constructor
  · decide
  · decide

/-- C4 (amended): for every nonempty content, with controller acks
reporting success, send_file first transmits the bare filename, then one
chunk per 400-byte slice of the content in order with block numbers 1, 2,
..., bit 31 ORed into the block number of the chunk that reaches the end of
the content, every transmission expecting a reply; the loop is terminated
by the controller's answer echoing the terminal bit (send_file itself
transmits no send-only acknowledgment).  For 950 bytes this is exactly
three chunks of 400, 400 and 150 bytes with block numbers 1, 2,
3 ||| bit 31, and for a content of exactly 800 = 2 * 400 bytes the transfer
still terminates, with the terminal bit carried on the (full-size) last
chunk. -/
theorem send_file_chunk_sequence :
    (∀ (filename context : List Nat) (fuel : Nat),
      0 < context.length → context.length < 2 ^ 31 →
      context.length + CHUNK_SIZE ≤ CHUNK_SIZE * fuel →
      send_file echoController filename context fuel =
        .ok (some (ERROR_SUCCESS,
          ⟨filename, 0, TRANSMISSION_SEND_AND_RECV⟩ :: chunkSpec context 0)) ∧
      ((chunkSpec context 0).map SentPacket.data).flatten = context ∧
      (∀ p, (chunkSpec context 0).getLast? = some p →
        p.block_no &&& 0x80000000 ≠ 0) ∧
      (∀ p ∈ chunkSpec context 0, p.direction = TRANSMISSION_SEND_AND_RECV) ∧
      (chunkSpec context 0).length =
        (context.length + CHUNK_SIZE - 1) / CHUNK_SIZE) ∧
    (send_file echoController jbiName c950 8 =
      .ok (some (ERROR_SUCCESS,
        [⟨jbiName, 0, TRANSMISSION_SEND_AND_RECV⟩,
         ⟨c950.take 400, 1, TRANSMISSION_SEND_AND_RECV⟩,
         ⟨(c950.drop 400).take 400, 2, TRANSMISSION_SEND_AND_RECV⟩,
         ⟨c950.drop 800, 3 ||| 0x80000000, TRANSMISSION_SEND_AND_RECV⟩])) ∧
      (c950.take 400).length = 400 ∧
      ((c950.drop 400).take 400).length = 400 ∧
      (c950.drop 800).length = 150) ∧
    (send_file echoController jbiName c800 8 =
      .ok (some (ERROR_SUCCESS,
        [⟨jbiName, 0, TRANSMISSION_SEND_AND_RECV⟩,
         ⟨c800.take 400, 1, TRANSMISSION_SEND_AND_RECV⟩,
         ⟨c800.drop 400, 2 ||| 0x80000000, TRANSMISSION_SEND_AND_RECV⟩])) ∧
      (c800.drop 400).length = 400) := by
  refine ⟨?_, by decide, by decide⟩
  intro filename context fuel h0 hL hf
  have hloop := sendFileLoop_echo context hL fuel 0 (by simpa using h0) (by simpa using hf)
    (by positivity)
  refine ⟨?_, ?_, chunkSpec_last_bit context 0, chunkSpec_directions context 0, ?_⟩
  · rw [send_file, if_neg (by omega), hloop]
    rfl
  · have h2 := chunkSpec_flatten context 0
    simpa using h2
  · have h3 := chunkSpec_length context 0 (by simpa using h0)
    simpa using h3

theorem send_file_chunk_sequence_witness :
    send_file echoController jbiName c800 3 =
      .ok (some (ERROR_SUCCESS,
        ⟨jbiName, 0, TRANSMISSION_SEND_AND_RECV⟩ :: chunkSpec c800 0)) ∧
    ((chunkSpec c800 0).map SentPacket.data).flatten = c800 ∧
    (∀ p, (chunkSpec c800 0).getLast? = some p →
      p.block_no &&& 0x80000000 ≠ 0) ∧
    (∀ p ∈ chunkSpec c800 0, p.direction = TRANSMISSION_SEND_AND_RECV) ∧
    (chunkSpec c800 0).length = (c800.length + CHUNK_SIZE - 1) / CHUNK_SIZE :=
  send_file_chunk_sequence.1 jbiName c800 3 (by decide) (by decide) (by decide)

/-- FS100.VarType (IO renamed to inputOutput). -/
inductive VType where
  | inputOutput
  | register
  | byte
  | integer
  | double
  | real
  | string
  | robotPosition
  | basePosition
  | externalAxis
deriving DecidableEq, Repr

/-- The IntEnum value of each FS100.VarType member. -/
def VType.code : VType → Nat
  | .inputOutput => 0x78
  | .register => 0x79
  | .byte => 0x7a
  | .integer => 0x7b
  | .double => 0x7c
  | .real => 0x7d
  | .string => 0x7e
  | .robotPosition => 0x7f
  | .basePosition => 0x80
  | .externalAxis => 0x81

/-- Value held by an FS100.Variable.  IO/REGISTER/BYTE/INTEGER/DOUBLE values
are Python ints (intv); a REAL value is a Python float carrying an IEEE-754
binary32 value and is modelled by its 32-bit pattern (fltBits), because
struct.unpack of <f yields exactly the double extension of those 32 bits
and struct.pack of <f maps that double back to the same 4 bytes; a STRING
value is modelled by its UTF-8 byte sequence (decode then encode of a valid
sequence is the identity on the bytes); position values mirror the dict
layout set_val builds. -/
inductive VVal where
  | intv (n : Int)
  | fltBits (bits : Nat)
  | strv (bs : List Nat)
  | posv (dataType form toolNo userCoorNo extendedForm : Nat)
         (p1 p2 p3 p4 p5 p6 p7 : Int)
  | axisv (dataType : Nat) (a1 a2 a3 a4 a5 a6 a7 : Int)
deriving DecidableEq, Repr

/-- FS100.Variable: type tag, variable number and optional value. -/
structure Variable where
  type : VType
  num : Int
  val : Option VVal
deriving DecidableEq, Repr

/-- struct.pack of B: one unsigned byte, out-of-range values raise. -/
def u8pack (n : Int) : Option (List Nat) :=
  if 0 ≤ n ∧ n < 256 then some [n.toNat] else none

/-- struct.pack of <H: unsigned 16-bit little-endian, out-of-range raises. -/
def u16pack (n : Int) : Option (List Nat) :=
  if 0 ≤ n ∧ n < 65536 then some (u16le n.toNat) else none

/-- struct.pack of <I on a Nat: unsigned 32-bit little-endian. -/
def u32packN (n : Nat) : Option (List Nat) :=
  if n < 4294967296 then some (u32le n) else none

/-- struct.pack of <h: signed 16-bit little-endian two's complement. -/
def i16pack (n : Int) : Option (List Nat) :=
  if -32768 ≤ n ∧ n < 32768 then some (u16le (toTwos 16 n)) else none

/-- struct.pack of <i: signed 32-bit little-endian two's complement. -/
def i32pack (n : Int) : Option (List Nat) :=
  if -2147483648 ≤ n ∧ n < 2147483648 then some (u32le (toTwos 32 n)) else none

/-- The IEEE-754 binary32 pattern struct.pack of <f produces for a Python
int (floats that are ints round to nearest, ties to even; magnitudes at or
beyond 2^128 overflow to infinity).  _read_consecutive_variables evaluates
this at 0 when computing the wire width of a REAL variable. -/
def f32bitsOfInt (n : Int) : Nat :=
  if n = 0 then 0
  else
    let s : Nat := if n < 0 then 2 ^ 31 else 0
    let m : Nat := n.natAbs
    let e : Nat := Nat.log2 m
    if e ≤ 23 then
      s + (e + 127) * 2 ^ 23 + (m * 2 ^ (23 - e) - 2 ^ 23)
    else
      let shift := e - 23
      let q := m / 2 ^ shift
      let r := m % 2 ^ shift
      let half := 2 ^ (shift - 1)
      let q2 := if half < r ∨ (r = half ∧ q % 2 = 1) then q + 1 else q
      let q3 := if q2 = 2 ^ 24 then 2 ^ 23 else q2
      let e2 := if q2 = 2 ^ 24 then e + 1 else e
      if 255 ≤ e2 + 127 then s + 255 * 2 ^ 23
      else s + (e2 + 127) * 2 ^ 23 + (q3 - 2 ^ 23)

/-- FS100.Variable.val_to_bytes: encodes the value according to the type
tag; `none` models the exception Python raises when the value's shape does
not fit the type (e.g. an int where a position dict is expected) or a pack
argument is out of range. -/
def valToBytes : VType → VVal → Option (List Nat)
  | .inputOutput, .intv n => u8pack n
  | .register, .intv n => u16pack n
  | .byte, .intv n => u8pack n
  | .integer, .intv n => i16pack n
  | .double, .intv n => i32pack n
  | .real, .intv n => some (u32le (f32bitsOfInt n))
  | .real, .fltBits b => if b < 4294967296 then some (u32le b) else none
  | .string, .strv bs => some bs
  | .robotPosition, .posv dt fm tl uc ef p1 p2 p3 p4 p5 p6 p7 => do
      let b1 ← u32packN dt
      let b2 ← u32packN fm
      let b3 ← u32packN tl
      let b4 ← u32packN uc
      let b5 ← u32packN ef
      let q1 ← i32pack p1
      let q2 ← i32pack p2
      let q3 ← i32pack p3
      let q4 ← i32pack p4
      let q5 ← i32pack p5
      let q6 ← i32pack p6
      let q7 ← i32pack p7
      pure (b1 ++ b2 ++ b3 ++ b4 ++ b5 ++ q1 ++ q2 ++ q3 ++ q4 ++ q5 ++ q6 ++ q7)
  | .basePosition, .axisv dt a1 a2 a3 a4 a5 a6 a7 => do
      let b1 ← u32packN dt
      let q1 ← i32pack a1
      let q2 ← i32pack a2
      let q3 ← i32pack a3
      let q4 ← i32pack a4
      let q5 ← i32pack a5
      let q6 ← i32pack a6
      let q7 ← i32pack a7
      pure (b1 ++ q1 ++ q2 ++ q3 ++ q4 ++ q5 ++ q6 ++ q7)
  | .externalAxis, .axisv dt a1 a2 a3 a4 a5 a6 a7 => do
      let b1 ← u32packN dt
      let q1 ← i32pack a1
      let q2 ← i32pack a2
      let q3 ← i32pack a3
      let q4 ← i32pack a4
      let q5 ← i32pack a5
      let q6 ← i32pack a6
      let q7 ← i32pack a7
      pure (b1 ++ q1 ++ q2 ++ q3 ++ q4 ++ q5 ++ q6 ++ q7)
  | _, _ => none

/-- Unsigned 32-bit read at byte offset i (struct.unpack of <I on
raw[i:i+4]). -/
def u32at (raw : List Nat) (i : Nat) : Nat := leNat ((raw.drop i).take 4)

/-- Signed 32-bit read at byte offset i (struct.unpack of <i on
raw[i:i+4]). -/
def i32at (raw : List Nat) (i : Nat) : Int := fromTwos 32 (leNat ((raw.drop i).take 4))

/-- FS100.Variable.set_val: decodes raw bytes into the value for the type
tag; `none` models the struct.error Python raises when a required slice is
incomplete.  The furthest slice read bounds the required length per type
(1, 2 or 4 bytes for scalars, 48 for ROBOT_POSITION, 32 for the two axis
kinds); STRING decodes the whole buffer. -/
def setVal : VType → List Nat → Option VVal
  | .inputOutput, raw => if raw.length < 1 then none else some (.intv (raw.getD 0 0))
  | .register, raw => if raw.length < 2 then none else some (.intv (leNat (raw.take 2)))
  | .byte, raw => if raw.length < 1 then none else some (.intv (raw.getD 0 0))
  | .integer, raw =>
      if raw.length < 2 then none else some (.intv (fromTwos 16 (leNat (raw.take 2))))
  | .double, raw =>
      if raw.length < 4 then none else some (.intv (fromTwos 32 (leNat (raw.take 4))))
  | .real, raw => if raw.length < 4 then none else some (.fltBits (leNat (raw.take 4)))
  | .string, raw => some (.strv raw)
  | .robotPosition, raw =>
      if raw.length < 48 then none
      else some (.posv (u32at raw 0) (u32at raw 4) (u32at raw 8) (u32at raw 12)
        (u32at raw 16) (i32at raw 20) (i32at raw 24) (i32at raw 28) (i32at raw 32)
        (i32at raw 36) (i32at raw 40) (i32at raw 44))
  | .basePosition, raw =>
      if raw.length < 32 then none
      else some (.axisv (u32at raw 0) (i32at raw 4) (i32at raw 8) (i32at raw 12)
        (i32at raw 16) (i32at raw 20) (i32at raw 24) (i32at raw 28))
  | .externalAxis, raw =>
      if raw.length < 32 then none
      else some (.axisv (u32at raw 0) (i32at raw 4) (i32at raw 8) (i32at raw 12)
        (i32at raw 16) (i32at raw 20) (i32at raw 24) (i32at raw 28))

/-- Well-formed representative values of each variable type: value shape
fits the type, scalars within the pack range of their wire format, strings
at most the protocol's 16 bytes of valid octets, REAL bit patterns 32 bits
wide. -/
def wfVal : VType → VVal → Bool
  | .inputOutput, .intv n => decide (0 ≤ n ∧ n < 256)
  | .register, .intv n => decide (0 ≤ n ∧ n < 65536)
  | .byte, .intv n => decide (0 ≤ n ∧ n < 256)
  | .integer, .intv n => decide (-32768 ≤ n ∧ n < 32768)
  | .double, .intv n => decide (-2147483648 ≤ n ∧ n < 2147483648)
  | .real, .fltBits b => decide (b < 4294967296)
  | .string, .strv bs => decide (bs.length ≤ 16) && bs.all (fun b => decide (b < 256))
  | .robotPosition, .posv dt fm tl uc ef p1 p2 p3 p4 p5 p6 p7 =>
      decide (dt < 4294967296 ∧ fm < 4294967296 ∧ tl < 4294967296 ∧
        uc < 4294967296 ∧ ef < 4294967296) &&
      decide (-2147483648 ≤ p1 ∧ p1 < 2147483648 ∧ -2147483648 ≤ p2 ∧ p2 < 2147483648 ∧
        -2147483648 ≤ p3 ∧ p3 < 2147483648 ∧ -2147483648 ≤ p4 ∧ p4 < 2147483648 ∧
        -2147483648 ≤ p5 ∧ p5 < 2147483648 ∧ -2147483648 ≤ p6 ∧ p6 < 2147483648 ∧
        -2147483648 ≤ p7 ∧ p7 < 2147483648)
  | .basePosition, .axisv dt a1 a2 a3 a4 a5 a6 a7 =>
      decide (dt < 4294967296) &&
      decide (-2147483648 ≤ a1 ∧ a1 < 2147483648 ∧ -2147483648 ≤ a2 ∧ a2 < 2147483648 ∧
        -2147483648 ≤ a3 ∧ a3 < 2147483648 ∧ -2147483648 ≤ a4 ∧ a4 < 2147483648 ∧
        -2147483648 ≤ a5 ∧ a5 < 2147483648 ∧ -2147483648 ≤ a6 ∧ a6 < 2147483648 ∧
        -2147483648 ≤ a7 ∧ a7 < 2147483648)
  | .externalAxis, .axisv dt a1 a2 a3 a4 a5 a6 a7 =>
      decide (dt < 4294967296) &&
      decide (-2147483648 ≤ a1 ∧ a1 < 2147483648 ∧ -2147483648 ≤ a2 ∧ a2 < 2147483648 ∧
        -2147483648 ≤ a3 ∧ a3 < 2147483648 ∧ -2147483648 ≤ a4 ∧ a4 < 2147483648 ∧
        -2147483648 ≤ a5 ∧ a5 < 2147483648 ∧ -2147483648 ≤ a6 ∧ a6 < 2147483648 ∧
        -2147483648 ≤ a7 ∧ a7 < 2147483648)
  | _, _ => false

theorem leNat_u16le (n : Nat) (h : n < 65536) : leNat (u16le n) = n := by
  simp only [u16le, leNat, List.foldr]
  omega

theorem leNat_u32le (n : Nat) (h : n < 4294967296) : leNat (u32le n) = n := by
  simp only [u32le, leNat, List.foldr]
  omega

theorem toTwos_16_lt (n : Int) : toTwos 16 n < 65536 := by
  simp only [toTwos]
  have h1 : (0 : Int) ≤ n % 2 ^ 16 := Int.emod_nonneg n (by norm_num)
  have h2 : n % 2 ^ 16 < 2 ^ 16 := Int.emod_lt_of_pos n (by norm_num)
  norm_num at h2
  omega

theorem toTwos_32_lt (n : Int) : toTwos 32 n < 4294967296 := by
  simp only [toTwos]
  have h1 : (0 : Int) ≤ n % 2 ^ 32 := Int.emod_nonneg n (by norm_num)
  have h2 : n % 2 ^ 32 < 2 ^ 32 := Int.emod_lt_of_pos n (by norm_num)
  norm_num at h2
  omega

theorem fromTwos_toTwos_16 (n : Int) (h1 : -32768 ≤ n) (h2 : n < 32768) :
    fromTwos 16 (toTwos 16 n) = n := by
  simp only [fromTwos, toTwos]
  norm_num
  split_ifs <;> omega

theorem fromTwos_toTwos_32 (n : Int) (h1 : -2147483648 ≤ n) (h2 : n < 2147483648) :
    fromTwos 32 (toTwos 32 n) = n := by
  simp only [fromTwos, toTwos]
  norm_num
  split_ifs <;> omega

theorem u32at_of_split (raw x rest : List Nat) (m o : Nat)
    (h : raw = x ++ (u32le m ++ rest)) (hm : m < 4294967296) (ho : o = x.length) :
    u32at raw o = m := by
  subst h ho
  have h4 : u32le m ++ rest = u32le m ++ rest := rfl
  simp only [u32at]
  rw [show x.length = x.length + 0 from rfl, List.drop_append, List.drop_zero]
  rw [show (4 : Nat) = (u32le m).length from rfl, List.take_left]
  exact leNat_u32le m hm

theorem i32at_of_split (raw x rest : List Nat) (n : Int) (o : Nat)
    (h : raw = x ++ (u32le (toTwos 32 n) ++ rest))
    (h1 : -2147483648 ≤ n) (h2 : n < 2147483648) (ho : o = x.length) :
    i32at raw o = n := by
  subst h ho
  simp only [i32at]
  rw [show x.length = x.length + 0 from rfl, List.drop_append, List.drop_zero]
  rw [show (4 : Nat) = (u32le (toTwos 32 n)).length from rfl, List.take_left]
  rw [leNat_u32le _ (toTwos_32_lt n)]
  exact fromTwos_toTwos_32 n h1 h2

theorem setVal_robotPosition_blocks (dt fm tl uc ef : Nat) (p1 p2 p3 p4 p5 p6 p7 : Int)
    (hdt : dt < 4294967296) (hfm : fm < 4294967296) (htl : tl < 4294967296)
    (huc : uc < 4294967296) (hef : ef < 4294967296)
    (h1l : -2147483648 ≤ p1) (h1r : p1 < 2147483648)
    (h2l : -2147483648 ≤ p2) (h2r : p2 < 2147483648)
    (h3l : -2147483648 ≤ p3) (h3r : p3 < 2147483648)
    (h4l : -2147483648 ≤ p4) (h4r : p4 < 2147483648)
    (h5l : -2147483648 ≤ p5) (h5r : p5 < 2147483648)
    (h6l : -2147483648 ≤ p6) (h6r : p6 < 2147483648)
    (h7l : -2147483648 ≤ p7) (h7r : p7 < 2147483648) :
    setVal .robotPosition (u32le dt ++ u32le fm ++ u32le tl ++ u32le uc ++ u32le ef ++
      u32le (toTwos 32 p1) ++ u32le (toTwos 32 p2) ++ u32le (toTwos 32 p3) ++
      u32le (toTwos 32 p4) ++ u32le (toTwos 32 p5) ++ u32le (toTwos 32 p6) ++
      u32le (toTwos 32 p7)) =
      some (.posv dt fm tl uc ef p1 p2 p3 p4 p5 p6 p7) := by
  simp only [setVal]
  rw [if_neg (by simp [u32le])]
  simp only [Option.some.injEq, VVal.posv.injEq]
  refine ⟨?_, ?_, ?_, ?_, ?_, ?_, ?_, ?_, ?_, ?_, ?_, ?_⟩
  · exact u32at_of_split _ []
      (u32le fm ++ u32le tl ++ u32le uc ++ u32le ef ++ u32le (toTwos 32 p1) ++
       u32le (toTwos 32 p2) ++ u32le (toTwos 32 p3) ++ u32le (toTwos 32 p4) ++
       u32le (toTwos 32 p5) ++ u32le (toTwos 32 p6) ++ u32le (toTwos 32 p7))
      dt 0 (by simp [List.append_assoc]) hdt (by simp)
  · exact u32at_of_split _ (u32le dt)
      (u32le tl ++ u32le uc ++ u32le ef ++ u32le (toTwos 32 p1) ++
       u32le (toTwos 32 p2) ++ u32le (toTwos 32 p3) ++ u32le (toTwos 32 p4) ++
       u32le (toTwos 32 p5) ++ u32le (toTwos 32 p6) ++ u32le (toTwos 32 p7))
      fm 4 (by simp [List.append_assoc]) hfm (by simp [u32le])
  · exact u32at_of_split _ (u32le dt ++ u32le fm)
      (u32le uc ++ u32le ef ++ u32le (toTwos 32 p1) ++
       u32le (toTwos 32 p2) ++ u32le (toTwos 32 p3) ++ u32le (toTwos 32 p4) ++
       u32le (toTwos 32 p5) ++ u32le (toTwos 32 p6) ++ u32le (toTwos 32 p7))
      tl 8 (by simp [List.append_assoc]) htl (by simp [u32le])
  · exact u32at_of_split _ (u32le dt ++ u32le fm ++ u32le tl)
      (u32le ef ++ u32le (toTwos 32 p1) ++
       u32le (toTwos 32 p2) ++ u32le (toTwos 32 p3) ++ u32le (toTwos 32 p4) ++
       u32le (toTwos 32 p5) ++ u32le (toTwos 32 p6) ++ u32le (toTwos 32 p7))
      uc 12 (by simp [List.append_assoc]) huc (by simp [u32le])
  · exact u32at_of_split _ (u32le dt ++ u32le fm ++ u32le tl ++ u32le uc)
      (u32le (toTwos 32 p1) ++
       u32le (toTwos 32 p2) ++ u32le (toTwos 32 p3) ++ u32le (toTwos 32 p4) ++
       u32le (toTwos 32 p5) ++ u32le (toTwos 32 p6) ++ u32le (toTwos 32 p7))
      ef 16 (by simp [List.append_assoc]) hef (by simp [u32le])
  · exact i32at_of_split _ (u32le dt ++ u32le fm ++ u32le tl ++ u32le uc ++ u32le ef)
      (u32le (toTwos 32 p2) ++ u32le (toTwos 32 p3) ++ u32le (toTwos 32 p4) ++
       u32le (toTwos 32 p5) ++ u32le (toTwos 32 p6) ++ u32le (toTwos 32 p7))
      p1 20 (by simp [List.append_assoc]) h1l h1r (by simp [u32le])
  · exact i32at_of_split _ (u32le dt ++ u32le fm ++ u32le tl ++ u32le uc ++ u32le ef ++
       u32le (toTwos 32 p1))
      (u32le (toTwos 32 p3) ++ u32le (toTwos 32 p4) ++
       u32le (toTwos 32 p5) ++ u32le (toTwos 32 p6) ++ u32le (toTwos 32 p7))
      p2 24 (by simp [List.append_assoc]) h2l h2r (by simp [u32le])
  · exact i32at_of_split _ (u32le dt ++ u32le fm ++ u32le tl ++ u32le uc ++ u32le ef ++
       u32le (toTwos 32 p1) ++ u32le (toTwos 32 p2))
      (u32le (toTwos 32 p4) ++
       u32le (toTwos 32 p5) ++ u32le (toTwos 32 p6) ++ u32le (toTwos 32 p7))
      p3 28 (by simp [List.append_assoc]) h3l h3r (by simp [u32le])
  · exact i32at_of_split _ (u32le dt ++ u32le fm ++ u32le tl ++ u32le uc ++ u32le ef ++
       u32le (toTwos 32 p1) ++ u32le (toTwos 32 p2) ++ u32le (toTwos 32 p3))
      (u32le (toTwos 32 p5) ++ u32le (toTwos 32 p6) ++ u32le (toTwos 32 p7))
      p4 32 (by simp [List.append_assoc]) h4l h4r (by simp [u32le])
  · exact i32at_of_split _ (u32le dt ++ u32le fm ++ u32le tl ++ u32le uc ++ u32le ef ++
       u32le (toTwos 32 p1) ++ u32le (toTwos 32 p2) ++ u32le (toTwos 32 p3) ++
       u32le (toTwos 32 p4))
      (u32le (toTwos 32 p6) ++ u32le (toTwos 32 p7))
      p5 36 (by simp [List.append_assoc]) h5l h5r (by simp [u32le])
  · exact i32at_of_split _ (u32le dt ++ u32le fm ++ u32le tl ++ u32le uc ++ u32le ef ++
       u32le (toTwos 32 p1) ++ u32le (toTwos 32 p2) ++ u32le (toTwos 32 p3) ++
       u32le (toTwos 32 p4) ++ u32le (toTwos 32 p5))
      (u32le (toTwos 32 p7))
      p6 40 (by simp [List.append_assoc]) h6l h6r (by simp [u32le])
  · exact i32at_of_split _ (u32le dt ++ u32le fm ++ u32le tl ++ u32le uc ++ u32le ef ++
       u32le (toTwos 32 p1) ++ u32le (toTwos 32 p2) ++ u32le (toTwos 32 p3) ++
       u32le (toTwos 32 p4) ++ u32le (toTwos 32 p5) ++ u32le (toTwos 32 p6))
      []
      p7 44 (by simp [List.append_assoc]) h7l h7r (by simp [u32le])

theorem setVal_axis_blocks (t : VType) (ht : t = .basePosition ∨ t = .externalAxis)
    (dt : Nat) (a1 a2 a3 a4 a5 a6 a7 : Int)
    (hdt : dt < 4294967296)
    (h1l : -2147483648 ≤ a1) (h1r : a1 < 2147483648)
    (h2l : -2147483648 ≤ a2) (h2r : a2 < 2147483648)
    (h3l : -2147483648 ≤ a3) (h3r : a3 < 2147483648)
    (h4l : -2147483648 ≤ a4) (h4r : a4 < 2147483648)
    (h5l : -2147483648 ≤ a5) (h5r : a5 < 2147483648)
    (h6l : -2147483648 ≤ a6) (h6r : a6 < 2147483648)
    (h7l : -2147483648 ≤ a7) (h7r : a7 < 2147483648) :
    setVal t (u32le dt ++ u32le (toTwos 32 a1) ++ u32le (toTwos 32 a2) ++
      u32le (toTwos 32 a3) ++ u32le (toTwos 32 a4) ++ u32le (toTwos 32 a5) ++
      u32le (toTwos 32 a6) ++ u32le (toTwos 32 a7)) =
      some (.axisv dt a1 a2 a3 a4 a5 a6 a7) := by
  have hfields :
      u32at (u32le dt ++ u32le (toTwos 32 a1) ++ u32le (toTwos 32 a2) ++
        u32le (toTwos 32 a3) ++ u32le (toTwos 32 a4) ++ u32le (toTwos 32 a5) ++
        u32le (toTwos 32 a6) ++ u32le (toTwos 32 a7)) 0 = dt ∧
      i32at (u32le dt ++ u32le (toTwos 32 a1) ++ u32le (toTwos 32 a2) ++
        u32le (toTwos 32 a3) ++ u32le (toTwos 32 a4) ++ u32le (toTwos 32 a5) ++
        u32le (toTwos 32 a6) ++ u32le (toTwos 32 a7)) 4 = a1 ∧
      i32at (u32le dt ++ u32le (toTwos 32 a1) ++ u32le (toTwos 32 a2) ++
        u32le (toTwos 32 a3) ++ u32le (toTwos 32 a4) ++ u32le (toTwos 32 a5) ++
        u32le (toTwos 32 a6) ++ u32le (toTwos 32 a7)) 8 = a2 ∧
      i32at (u32le dt ++ u32le (toTwos 32 a1) ++ u32le (toTwos 32 a2) ++
        u32le (toTwos 32 a3) ++ u32le (toTwos 32 a4) ++ u32le (toTwos 32 a5) ++
        u32le (toTwos 32 a6) ++ u32le (toTwos 32 a7)) 12 = a3 ∧
      i32at (u32le dt ++ u32le (toTwos 32 a1) ++ u32le (toTwos 32 a2) ++
        u32le (toTwos 32 a3) ++ u32le (toTwos 32 a4) ++ u32le (toTwos 32 a5) ++
        u32le (toTwos 32 a6) ++ u32le (toTwos 32 a7)) 16 = a4 ∧
      i32at (u32le dt ++ u32le (toTwos 32 a1) ++ u32le (toTwos 32 a2) ++
        u32le (toTwos 32 a3) ++ u32le (toTwos 32 a4) ++ u32le (toTwos 32 a5) ++
        u32le (toTwos 32 a6) ++ u32le (toTwos 32 a7)) 20 = a5 ∧
      i32at (u32le dt ++ u32le (toTwos 32 a1) ++ u32le (toTwos 32 a2) ++
        u32le (toTwos 32 a3) ++ u32le (toTwos 32 a4) ++ u32le (toTwos 32 a5) ++
        u32le (toTwos 32 a6) ++ u32le (toTwos 32 a7)) 24 = a6 ∧
      i32at (u32le dt ++ u32le (toTwos 32 a1) ++ u32le (toTwos 32 a2) ++
        u32le (toTwos 32 a3) ++ u32le (toTwos 32 a4) ++ u32le (toTwos 32 a5) ++
        u32le (toTwos 32 a6) ++ u32le (toTwos 32 a7)) 28 = a7 := by
    refine ⟨?_, ?_, ?_, ?_, ?_, ?_, ?_, ?_⟩
    · exact u32at_of_split _ []
        (u32le (toTwos 32 a1) ++ u32le (toTwos 32 a2) ++ u32le (toTwos 32 a3) ++
         u32le (toTwos 32 a4) ++ u32le (toTwos 32 a5) ++ u32le (toTwos 32 a6) ++
         u32le (toTwos 32 a7))
        dt 0 (by simp [List.append_assoc]) hdt (by simp)
    · exact i32at_of_split _ (u32le dt)
        (u32le (toTwos 32 a2) ++ u32le (toTwos 32 a3) ++
         u32le (toTwos 32 a4) ++ u32le (toTwos 32 a5) ++ u32le (toTwos 32 a6) ++
         u32le (toTwos 32 a7))
        a1 4 (by simp [List.append_assoc]) h1l h1r (by simp [u32le])
    · exact i32at_of_split _ (u32le dt ++ u32le (toTwos 32 a1))
        (u32le (toTwos 32 a3) ++
         u32le (toTwos 32 a4) ++ u32le (toTwos 32 a5) ++ u32le (toTwos 32 a6) ++
         u32le (toTwos 32 a7))
        a2 8 (by simp [List.append_assoc]) h2l h2r (by simp [u32le])
    · exact i32at_of_split _ (u32le dt ++ u32le (toTwos 32 a1) ++ u32le (toTwos 32 a2))
        (u32le (toTwos 32 a4) ++ u32le (toTwos 32 a5) ++ u32le (toTwos 32 a6) ++
         u32le (toTwos 32 a7))
        a3 12 (by simp [List.append_assoc]) h3l h3r (by simp [u32le])
    · exact i32at_of_split _ (u32le dt ++ u32le (toTwos 32 a1) ++ u32le (toTwos 32 a2) ++
         u32le (toTwos 32 a3))
        (u32le (toTwos 32 a5) ++ u32le (toTwos 32 a6) ++ u32le (toTwos 32 a7))
        a4 16 (by simp [List.append_assoc]) h4l h4r (by simp [u32le])
    · exact i32at_of_split _ (u32le dt ++ u32le (toTwos 32 a1) ++ u32le (toTwos 32 a2) ++
         u32le (toTwos 32 a3) ++ u32le (toTwos 32 a4))
        (u32le (toTwos 32 a6) ++ u32le (toTwos 32 a7))
        a5 20 (by simp [List.append_assoc]) h5l h5r (by simp [u32le])
    · exact i32at_of_split _ (u32le dt ++ u32le (toTwos 32 a1) ++ u32le (toTwos 32 a2) ++
         u32le (toTwos 32 a3) ++ u32le (toTwos 32 a4) ++ u32le (toTwos 32 a5))
        (u32le (toTwos 32 a7))
        a6 24 (by simp [List.append_assoc]) h6l h6r (by simp [u32le])
    · exact i32at_of_split _ (u32le dt ++ u32le (toTwos 32 a1) ++ u32le (toTwos 32 a2) ++
         u32le (toTwos 32 a3) ++ u32le (toTwos 32 a4) ++ u32le (toTwos 32 a5) ++
         u32le (toTwos 32 a6))
        []
        a7 28 (by simp [List.append_assoc]) h7l h7r (by simp [u32le])
  rcases ht with h | h <;> subst h
  · simp only [setVal]
    rw [if_neg (by simp [u32le])]
    simp only [Option.some.injEq, VVal.axisv.injEq]
    exact ⟨hfields.1, hfields.2.1, hfields.2.2.1, hfields.2.2.2.1, hfields.2.2.2.2.1,
      hfields.2.2.2.2.2.1, hfields.2.2.2.2.2.2.1, hfields.2.2.2.2.2.2.2⟩
  · simp only [setVal]
    rw [if_neg (by simp [u32le])]
    simp only [Option.some.injEq, VVal.axisv.injEq]
    exact ⟨hfields.1, hfields.2.1, hfields.2.2.1, hfields.2.2.2.1, hfields.2.2.2.2.1,
      hfields.2.2.2.2.2.1, hfields.2.2.2.2.2.2.1, hfields.2.2.2.2.2.2.2⟩

theorem u16le_take (x : Nat) : (u16le x).take 2 = u16le x := rfl

theorem u16le_length (x : Nat) : (u16le x).length = 2 := rfl

theorem u32le_take (x : Nat) : (u32le x).take 4 = u32le x := rfl

theorem u32le_length (x : Nat) : (u32le x).length = 4 := rfl

/-- C6: for each of the nine variable types and every well-formed
representative value of that type, set_val of the bytes val_to_bytes
produces restores exactly the value held before. -/
theorem variable_roundtrip (t : VType) (v : VVal) (h : wfVal t v = true) :
    (valToBytes t v).bind (setVal t) = some v := by
  cases t <;> cases v <;>
    simp only [wfVal, Bool.and_eq_true, decide_eq_true_eq, List.all_eq_true] at h <;>
    try exact absurd h (by decide)
  · rename_i n
    obtain ⟨hl, hr⟩ := h
    simp [valToBytes, u8pack, setVal, hl, hr, Int.toNat_of_nonneg hl]
  · rename_i n
    obtain ⟨hl, hr⟩ := h
    have hn : n.toNat < 65536 := by omega
    simp [valToBytes, u16pack, setVal, hl, hr, u16le_take, u16le_length,
      leNat_u16le _ hn, Int.toNat_of_nonneg hl]
  · rename_i n
    obtain ⟨hl, hr⟩ := h
    simp [valToBytes, u8pack, setVal, hl, hr, Int.toNat_of_nonneg hl]
  · rename_i n
    obtain ⟨hl, hr⟩ := h
    simp [valToBytes, i16pack, setVal, hl, hr, u16le_take, u16le_length,
      leNat_u16le _ (toTwos_16_lt n), fromTwos_toTwos_16 n hl hr]
  · rename_i n
    obtain ⟨hl, hr⟩ := h
    simp [valToBytes, i32pack, setVal, hl, hr, u32le_take, u32le_length,
      leNat_u32le _ (toTwos_32_lt n), fromTwos_toTwos_32 n hl hr]
  · rename_i b
    simp [valToBytes, setVal, h, u32le_take, u32le_length, leNat_u32le b h]
  · simp [valToBytes, setVal]
  · rename_i dt fm tl uc ef p1 p2 p3 p4 p5 p6 p7
    obtain ⟨⟨hdt, hfm, htl, huc, hef⟩, h1l, h1r, h2l, h2r, h3l, h3r, h4l, h4r,
      h5l, h5r, h6l, h6r, h7l, h7r⟩ := h
    have e1 : u32packN dt = some (u32le dt) := by rw [u32packN, if_pos hdt]
    have e2 : u32packN fm = some (u32le fm) := by rw [u32packN, if_pos hfm]
    have e3 : u32packN tl = some (u32le tl) := by rw [u32packN, if_pos htl]
    have e4 : u32packN uc = some (u32le uc) := by rw [u32packN, if_pos huc]
    have e5 : u32packN ef = some (u32le ef) := by rw [u32packN, if_pos hef]
    have f1 : i32pack p1 = some (u32le (toTwos 32 p1)) := by
      rw [i32pack, if_pos (And.intro h1l h1r)]
    have f2 : i32pack p2 = some (u32le (toTwos 32 p2)) := by
      rw [i32pack, if_pos (And.intro h2l h2r)]
    have f3 : i32pack p3 = some (u32le (toTwos 32 p3)) := by
      rw [i32pack, if_pos (And.intro h3l h3r)]
    have f4 : i32pack p4 = some (u32le (toTwos 32 p4)) := by
      rw [i32pack, if_pos (And.intro h4l h4r)]
    have f5 : i32pack p5 = some (u32le (toTwos 32 p5)) := by
      rw [i32pack, if_pos (And.intro h5l h5r)]
    have f6 : i32pack p6 = some (u32le (toTwos 32 p6)) := by
      rw [i32pack, if_pos (And.intro h6l h6r)]
    have f7 : i32pack p7 = some (u32le (toTwos 32 p7)) := by
      rw [i32pack, if_pos (And.intro h7l h7r)]
    simp only [valToBytes, e1, e2, e3, e4, e5, f1, f2, f3, f4, f5, f6, f7,
      Option.bind_eq_bind, Option.some_bind, pure]
    exact setVal_robotPosition_blocks dt fm tl uc ef p1 p2 p3 p4 p5 p6 p7
      hdt hfm htl huc hef h1l h1r h2l h2r h3l h3r h4l h4r h5l h5r h6l h6r h7l h7r
  · rename_i dt a1 a2 a3 a4 a5 a6 a7
    obtain ⟨hdt, h1l, h1r, h2l, h2r, h3l, h3r, h4l, h4r, h5l, h5r, h6l, h6r,
      h7l, h7r⟩ := h
    have e1 : u32packN dt = some (u32le dt) := by rw [u32packN, if_pos hdt]
    have f1 : i32pack a1 = some (u32le (toTwos 32 a1)) := by
      rw [i32pack, if_pos (And.intro h1l h1r)]
    have f2 : i32pack a2 = some (u32le (toTwos 32 a2)) := by
      rw [i32pack, if_pos (And.intro h2l h2r)]
    have f3 : i32pack a3 = some (u32le (toTwos 32 a3)) := by
      rw [i32pack, if_pos (And.intro h3l h3r)]
    have f4 : i32pack a4 = some (u32le (toTwos 32 a4)) := by
      rw [i32pack, if_pos (And.intro h4l h4r)]
    have f5 : i32pack a5 = some (u32le (toTwos 32 a5)) := by
      rw [i32pack, if_pos (And.intro h5l h5r)]
    have f6 : i32pack a6 = some (u32le (toTwos 32 a6)) := by
      rw [i32pack, if_pos (And.intro h6l h6r)]
    have f7 : i32pack a7 = some (u32le (toTwos 32 a7)) := by
      rw [i32pack, if_pos (And.intro h7l h7r)]
    simp only [valToBytes, e1, f1, f2, f3, f4, f5, f6, f7,
      Option.bind_eq_bind, Option.some_bind, pure]
    exact setVal_axis_blocks .basePosition (Or.inl rfl) dt a1 a2 a3 a4 a5 a6 a7
      hdt h1l h1r h2l h2r h3l h3r h4l h4r h5l h5r h6l h6r h7l h7r
  · rename_i dt a1 a2 a3 a4 a5 a6 a7
    obtain ⟨hdt, h1l, h1r, h2l, h2r, h3l, h3r, h4l, h4r, h5l, h5r, h6l, h6r,
      h7l, h7r⟩ := h
    have e1 : u32packN dt = some (u32le dt) := by rw [u32packN, if_pos hdt]
    have f1 : i32pack a1 = some (u32le (toTwos 32 a1)) := by
      rw [i32pack, if_pos (And.intro h1l h1r)]
    have f2 : i32pack a2 = some (u32le (toTwos 32 a2)) := by
      rw [i32pack, if_pos (And.intro h2l h2r)]
    have f3 : i32pack a3 = some (u32le (toTwos 32 a3)) := by
      rw [i32pack, if_pos (And.intro h3l h3r)]
    have f4 : i32pack a4 = some (u32le (toTwos 32 a4)) := by
      rw [i32pack, if_pos (And.intro h4l h4r)]
    have f5 : i32pack a5 = some (u32le (toTwos 32 a5)) := by
      rw [i32pack, if_pos (And.intro h5l h5r)]
    have f6 : i32pack a6 = some (u32le (toTwos 32 a6)) := by
      rw [i32pack, if_pos (And.intro h6l h6r)]
    have f7 : i32pack a7 = some (u32le (toTwos 32 a7)) := by
      rw [i32pack, if_pos (And.intro h7l h7r)]
    simp only [valToBytes, e1, f1, f2, f3, f4, f5, f6, f7,
      Option.bind_eq_bind, Option.some_bind, pure]
    exact setVal_axis_blocks .externalAxis (Or.inr rfl) dt a1 a2 a3 a4 a5 a6 a7
      hdt h1l h1r h2l h2r h3l h3r h4l h4r h5l h5r h6l h6r h7l h7r

/-- Concrete instances of the round trip: a maximum-length 16-byte string,
an external-axis record with negative axis values, and Integer zero. -/
theorem variable_roundtrip_witness :
    wfVal .string (.strv [74, 79, 66, 95, 78, 65, 77, 69, 95, 49, 50, 51, 52, 53, 54, 55]) =
      true ∧
    (valToBytes .string (.strv [74, 79, 66, 95, 78, 65, 77, 69, 95, 49, 50, 51, 52, 53, 54, 55])).bind
      (setVal .string) =
      some (.strv [74, 79, 66, 95, 78, 65, 77, 69, 95, 49, 50, 51, 52, 53, 54, 55]) ∧
    (valToBytes .externalAxis (.axisv 17 (-1) (-200000) 0 2147483647 (-2147483648) 5 (-6))).bind
      (setVal .externalAxis) =
      some (.axisv 17 (-1) (-200000) 0 2147483647 (-2147483648) 5 (-6)) ∧
    (valToBytes .integer (.intv 0)).bind (setVal .integer) = some (.intv 0) :=
  ⟨by decide,
   variable_roundtrip .string
     (.strv [74, 79, 66, 95, 78, 65, 77, 69, 95, 49, 50, 51, 52, 53, 54, 55]) (by decide),
   variable_roundtrip .externalAxis
     (.axisv 17 (-1) (-200000) 0 2147483647 (-2147483648) 5 (-6)) (by decide),
   variable_roundtrip .integer (.intv 0) (by decide)⟩

/-- python sorted on an int list (stable ascending sort; over a total
order on ints stability is unobservable, so any sorting algorithm models
it). -/
def pySorted (l : List Int) : List Int := l.insertionSort (· ≤ ·)

/-- The loop of FS100._group_nums: pop values off the sorted list,
extending the current sublist while it is empty or its last element equals
v or v - 1, otherwise yielding the sublist and starting a new one with v;
a leftover nonempty sublist is yielded at the end. -/
def groupNumsGo : List Int → List Int → List (List Int)
  | [], sublist => if sublist.isEmpty then [] else [sublist]
  | v :: rest, sublist =>
    if sublist.isEmpty ∨ sublist.getLast? = some v ∨ sublist.getLast? = some (v - 1) then
      groupNumsGo rest (sublist ++ [v])
    else
      sublist :: groupNumsGo rest [v]

/-- FS100._group_nums with its generator fully evaluated. -/
def groupNums (l : List Int) : List (List Int) := groupNumsGo (pySorted l) []

theorem groupNumsGo_flatten :
    ∀ (rest sub : List Int), (groupNumsGo rest sub).flatten = sub ++ rest := by
  intro rest
  induction rest with
  | nil =>
    intro sub
    cases sub <;> simp [groupNumsGo]
  | cons v rest ih =>
    intro sub
    rw [groupNumsGo]
    split
    · rw [ih]
      simp
    · simp only [List.flatten_cons, ih]
      simp

theorem groupNumsGo_head :
    ∀ (rest : List Int) (x : Int) (xs : List Int),
      ∃ ys rss, groupNumsGo rest (x :: xs) = (x :: ys) :: rss := by
  intro rest
  induction rest with
  | nil =>
    intro x xs
    exact ⟨xs, [], by simp [groupNumsGo]⟩
  | cons v rest ih =>
    intro x xs
    rw [groupNumsGo]
    split
    · obtain ⟨ys, rss, hy⟩ := ih x (xs ++ [v])
      exact ⟨ys, rss, by rw [List.cons_append, hy]⟩
    · exact ⟨xs, groupNumsGo rest [v], rfl⟩

theorem groupNumsGo_runs :
    ∀ (rest sub : List Int),
      List.Pairwise (· < ·) (sub ++ rest) →
      List.Chain' (fun a b => b = a + 1) sub →
      (∀ r ∈ groupNumsGo rest sub, r ≠ [] ∧ List.Chain' (fun a b => b = a + 1) r) ∧
      List.Chain' (fun r s => ∀ a b, r.getLast? = some a → s.head? = some b → a + 1 < b)
        (groupNumsGo rest sub) := by
  intro rest
  induction rest with
  | nil =>
    intro sub hpw hch
    cases sub with
    | nil => simp [groupNumsGo]
    | cons x xs =>
      refine ⟨?_, ?_⟩
      · intro r hr
        simp only [groupNumsGo, List.isEmpty_cons, Bool.false_eq_true, if_false,
          List.mem_singleton] at hr
        subst hr
        exact ⟨by simp, hch⟩
      · simp [groupNumsGo]
  | cons v rest ih =>
    intro sub hpw hch
    rw [groupNumsGo]
    have hsplit := (List.pairwise_append.mp hpw)
    split
    · rename_i hcond
      rcases hcond with hemp | hlast | hlast
      · have hsub : sub = [] := by
          cases sub with
          | nil => rfl
          | cons a as => simp at hemp
        subst hsub
        exact ih [v] (by simpa using hpw) (by simp)
      · exfalso
        have hmem : v ∈ sub := List.mem_of_mem_getLast? hlast
        have hlt : v < v := hsplit.2.2 v hmem v (by simp)
        exact lt_irrefl v hlt
      · have hch2 : List.Chain' (fun a b => b = a + 1) (sub ++ [v]) := by
          rw [List.chain'_append]
          refine ⟨hch, by simp, ?_⟩
          intro a ha b hb
          simp only [List.head?_cons, Option.mem_def, Option.some.injEq] at hb
          rw [Option.mem_def, hlast] at ha
          subst hb
          injection ha with ha2
          omega
        have hpw2 : List.Pairwise (· < ·) ((sub ++ [v]) ++ rest) := by
          have : (sub ++ [v]) ++ rest = sub ++ (v :: rest) := by simp
          rw [this]
          exact hpw
        exact ih (sub ++ [v]) hpw2 hch2
    · rename_i hcond
      push_neg at hcond
      obtain ⟨hne, hnv, hnv1⟩ := hcond
      have hsubne : sub ≠ [] := by
        cases sub with
        | nil => simp at hne
        | cons a as => simp
      obtain ⟨a, hlasta⟩ := Option.ne_none_iff_exists'.mp
        (mt List.getLast?_eq_none_iff.mp hsubne)
      have hamem : a ∈ sub := List.mem_of_mem_getLast? hlasta
      have haltv : a < v := hsplit.2.2 a hamem v (by simp)
      have hgap : a + 1 < v := by
        rcases lt_or_eq_of_le (by omega : a + 1 ≤ v) with h | h
        · exact h
        · exfalso
          apply hnv1
          rw [hlasta]
          congr 1
          omega
      have hrec := ih [v] (by
          have := hsplit.2.1
          simpa using this) (by simp)
      refine ⟨?_, ?_⟩
      · intro r hr
        rcases List.mem_cons.mp hr with h | h
        · subst h
          exact ⟨hsubne, hch⟩
        · exact hrec.1 r h
      · rw [List.chain'_cons']
        refine ⟨?_, hrec.2⟩
        intro s hs x y hx hy
        obtain ⟨ys, rss, heq⟩ := groupNumsGo_head rest v []
        rw [heq] at hs
        simp only [List.head?_cons, Option.mem_def, Option.some.injEq] at hs
        subst hs
        rw [hlasta] at hx
        injection hx with hx2
        simp only [List.head?_cons, Option.some.injEq] at hy
        omega

/-- C5: on a duplicate-free list of integer addresses _group_nums yields,
in ascending order, exactly the maximal runs of consecutive integers: the
runs concatenate to the ascending sort of the input, each run is nonempty
with every element one more than its predecessor, and adjacent runs are
separated by a gap of more than one (no run can be extended); concretely,
the input 5,6,7,10,1,2 yields 1,2 then 5,6,7 then 10, the empty input
yields no runs, and a single element yields one singleton run. -/
theorem group_nums_maximal_runs :
    (∀ l : List Int, l.Nodup →
       (groupNums l).flatten = pySorted l ∧
       List.Sorted (· ≤ ·) (pySorted l) ∧
       (pySorted l).Perm l ∧
       (∀ r ∈ groupNums l, r ≠ [] ∧ List.Chain' (fun a b => b = a + 1) r) ∧
       List.Chain' (fun r s => ∀ a b, r.getLast? = some a → s.head? = some b → a + 1 < b)
         (groupNums l)) ∧
    groupNums [5, 6, 7, 10, 1, 2] = [[1, 2], [5, 6, 7], [10]] ∧
    groupNums [] = [] ∧
    (∀ x : Int, groupNums [x] = [[x]]) := by
  refine ⟨?_, by decide, by decide, ?_⟩
  · intro l hnd
    have hperm : (pySorted l).Perm l := List.perm_insertionSort (· ≤ ·) l
    have hsorted : List.Sorted (· ≤ ·) (pySorted l) :=
      List.sorted_insertionSort (· ≤ ·) l
    have hnds : (pySorted l).Nodup := hperm.symm.nodup hnd
    have hlt : List.Pairwise (· < ·) (pySorted l) :=
      (List.Pairwise.and hsorted hnds).imp (fun hab => lt_of_le_of_ne hab.1 hab.2)
    have hruns := groupNumsGo_runs (pySorted l) [] (by simpa using hlt) (by simp)
    exact ⟨by simpa using groupNumsGo_flatten (pySorted l) [], hsorted, hperm,
      hruns.1, hruns.2⟩
  · intro x
    simp [groupNums, pySorted, List.insertionSort, List.orderedInsert, groupNumsGo]

theorem group_nums_maximal_runs_witness :
    (groupNums [5, 6, 7, 10, 1, 2]).flatten = pySorted [5, 6, 7, 10, 1, 2] ∧
    List.Sorted (· ≤ ·) (pySorted [5, 6, 7, 10, 1, 2]) ∧
    (pySorted [5, 6, 7, 10, 1, 2]).Perm [5, 6, 7, 10, 1, 2] ∧
    (∀ r ∈ groupNums [5, 6, 7, 10, 1, 2],
      r ≠ [] ∧ List.Chain' (fun a b => b = a + 1) r) ∧
    List.Chain' (fun r s => ∀ a b, r.getLast? = some a → s.head? = some b → a + 1 < b)
      (groupNums [5, 6, 7, 10, 1, 2]) :=
  group_nums_maximal_runs.1 [5, 6, 7, 10, 1, 2] (by decide)

/-- The request-specific fields of an FS100ReqPacket issued by the variable
reading paths (all of them use division ROBOT_CONTROL and request id 0,
which are therefore omitted).  inst is the variable number as passed by the
caller. -/
structure ReqPacket where
  cmd_no : Nat
  inst : Int
  attr : Nat
  service : Nat
  data : List Nat
deriving DecidableEq, Repr

/-- FS100.read_variable: position kinds read all attributes (attr 0,
service 0x01), the rest read attribute 1 with service 0x0e; on a success
answer set_val of the answer data is stored into the variable (a set_val
struct failure is an escaping exception, modelled as Except.error).
Returns the call outcome together with the requests transmitted. -/
def read_variable (oracle : ReqPacket → AnsPacket) (v : Variable) :
    Except String (Nat × Variable) × List ReqPacket :=
  let attrService : Nat × Nat :=
    if v.type = .robotPosition ∨ v.type = .basePosition ∨ v.type = .externalAxis
    then (0, 0x01) else (1, 0x0e)
  let req : ReqPacket :=
    { cmd_no := v.type.code, inst := v.num, attr := attrService.1
      service := attrService.2, data := [] }
  let ans := oracle req
  if ans.status ≠ ERROR_SUCCESS then (.ok (ans.status, v), [req])
  else
    match setVal v.type ans.data with
    | some w => (.ok (ans.status, { v with val := some w }), [req])
    | none => (.error "struct.error in set_val", [req])

/-- python min on a nonempty int list (the empty case is unreachable in
_read_consecutive_variables, which raises on an empty input first). -/
def pyMin : List Int → Int
  | [] => 0
  | x :: xs => xs.foldl min x

/-- python max on a nonempty int list. -/
def pyMax : List Int → Int
  | [] => 0
  | x :: xs => xs.foldl max x

/-- python list(range(lo, hi)). -/
def pyRange (lo hi : Int) : List Int :=
  (List.range (hi - lo).toNat).map (fun i => lo + Int.ofNat i)

/-- The enumerate loop at the end of _read_consecutive_variables: the ix-th
variable receives set_val of the answer-data slice
[4 + size * ix, 4 + size * (ix + 1)); a set_val struct failure aborts
(none). -/
def assignSlices (size : Nat) (data : List Nat) : List Variable → Nat → Option (List Variable)
  | [], _ => some []
  | v :: vs, ix =>
    match setVal v.type ((data.drop (4 + size * ix)).take size) with
    | none => none
    | some w =>
      (assignSlices size data vs (ix + 1)).map
        (fun rest => { v with val := some w } :: rest)

/-- FS100._read_consecutive_variables: validates the input (nonempty, all
of the first variable's type, numbers forming exactly the consecutive range
from their min to their max), computes the per-value wire width as the
length of val_to_bytes of a variable of that type holding the int 0 (which
raises for STRING and the position kinds, whose val_to_bytes rejects an int
— modelled by valToBytes returning none), rounds the requested count up to
an even number for 1-byte-wide types, issues one plural request with
command number type + 0x288, instance the first variable's number,
attribute 0 and service 0x33, and on success slices the answer data back
into the variables in list order.  Errors model the exceptions Python
raises; nothing is transmitted on the validation paths. -/
def read_consecutive_variables (oracle : ReqPacket → AnsPacket) (vars : List Variable) :
    Except String (Nat × List Variable) × List ReqPacket :=
  match vars with
  | [] => (.error "Input list cannot be empty", [])
  | var :: _ =>
    match valToBytes var.type (.intv 0) with
    | none => (.error "TypeError in val_to_bytes", [])
    | some sizeBytes =>
      if vars.any (fun v => v.type ≠ var.type) then
        (.error "Input list must contain var objects of the same type", [])
      else
        if pySorted (vars.map Variable.num) ≠
            pyRange (pyMin (vars.map Variable.num)) (pyMax (vars.map Variable.num) + 1) then
          (.error "Input list must contain var objects with consecutive numbers", [])
        else
          let var_count :=
            if sizeBytes.length = 1 ∧ vars.length % 2 = 1
            then vars.length + 1 else vars.length
          let req : ReqPacket :=
            { cmd_no := var.type.code + 0x288, inst := var.num, attr := 0
              service := 0x33, data := u32le var_count }
          let ans := oracle req
          if ans.status ≠ ERROR_SUCCESS then (.ok (ans.status, vars), [req])
          else
            match assignSlices sizeBytes.length ans.data vars 0 with
            | some vars2 => (.ok (ans.status, vars2), [req])
            | none => (.error "struct.error in set_val", [req])

/-- One step of the dict comprehension in read_variables: keyed by the
variable number, a later variable with the same number overwrites the
earlier value while the key keeps its first-occurrence position. -/
def dictInsert (d : List (Int × Variable)) (v : Variable) : List (Int × Variable) :=
  if d.any (fun p => p.1 = v.num) then
    d.map (fun p => if p.1 = v.num then (p.1, v) else p)
  else d ++ [(v.num, v)]

/-- The vars_dict of read_variables. -/
def varsDict (vars : List Variable) : List (Int × Variable) := vars.foldl dictInsert []

/-- Dict lookup by variable number. -/
def dictGet (d : List (Int × Variable)) (k : Int) : Option Variable :=
  (d.find? (fun p => p.1 = k)).map Prod.snd

/-- In-place mutation of the dict entry holding the given variable (keyed
by its number), as Python's object aliasing produces. -/
def dictSet (d : List (Int × Variable)) (v : Variable) : List (Int × Variable) :=
  d.map (fun p => if p.1 = v.num then (p.1, v) else p)

/-- Mutation of all the dict entries a batched read updated. -/
def dictSetAll (d : List (Int × Variable)) (vs : List Variable) : List (Int × Variable) :=
  vs.foldl dictSet d

/-- The inner loop of read_variables for a run of STRING variables: each
address is read one at a time, ORing the statuses into ret. -/
def stringRun (oracle : ReqPacket → AnsPacket) :
    List Int → List (Int × Variable) → Nat → List ReqPacket →
    List ReqPacket × List (Int × Variable) × Except String Nat
  | [], dict, ret, trace => (trace, dict, .ok ret)
  | k :: ks, dict, ret, trace =>
    match dictGet dict k with
    | none => (trace, dict, .error "KeyError")
    | some v =>
      match read_variable oracle v with
      | (.ok (st, v2), tr2) =>
        stringRun oracle ks (dictSet dict v2) (ret ||| st) (trace ++ tr2)
      | (.error e, tr2) => (trace ++ tr2, dict, .error e)

/-- The for-loop of read_variables over the consecutive runs: a run of one
address uses the single-variable path, a longer run of strings reads one
address at a time, any other longer run goes through
_read_consecutive_variables; each sub-result's status is ORed into ret, and
an escaping exception stops the loop with the trace and variable states
reached so far (a zero-length run matches no branch and is skipped). -/
def readRunsLoop (oracle : ReqPacket → AnsPacket) :
    List (List Int) → List (Int × Variable) → Nat → List ReqPacket →
    List ReqPacket × List (Int × Variable) × Except String Nat
  | [], dict, ret, trace => (trace, dict, .ok ret)
  | run :: runs, dict, ret, trace =>
    match run with
    | [] => readRunsLoop oracle runs dict ret trace
    | k :: _ =>
      if run.length = 1 then
        match dictGet dict k with
        | none => (trace, dict, .error "KeyError")
        | some v =>
          match read_variable oracle v with
          | (.ok (st, v2), tr2) =>
            readRunsLoop oracle runs (dictSet dict v2) (ret ||| st) (trace ++ tr2)
          | (.error e, tr2) => (trace ++ tr2, dict, .error e)
      else if (dictGet dict k).map Variable.type = some .string then
        match stringRun oracle run dict ret trace with
        | (tr2, dict2, .ok ret2) => readRunsLoop oracle runs dict2 ret2 tr2
        | (tr2, dict2, .error e) => (tr2, dict2, .error e)
      else
        match run.mapM (dictGet dict) with
        | none => (trace, dict, .error "KeyError")
        | some vlist =>
          match read_consecutive_variables oracle vlist with
          | (.ok (st, vlist2), tr2) =>
            readRunsLoop oracle runs (dictSetAll dict vlist2) (ret ||| st) (trace ++ tr2)
          | (.error e, tr2) => (trace ++ tr2, dict, .error e)

/-- FS100.read_variables: build vars_dict, group its keys into consecutive
runs with _group_nums, process every run accumulating the bitwise OR of the
sub-statuses, starting from ERROR_SUCCESS.  Returns the transmitted
requests, the final variable states (keyed by number) and the overall
outcome. -/
def read_variables (oracle : ReqPacket → AnsPacket) (vars : List Variable) :
    List ReqPacket × List (Int × Variable) × Except String Nat :=
  readRunsLoop oracle (groupNums ((varsDict vars).map Prod.fst)) (varsDict vars)
    ERROR_SUCCESS []

theorem pyRange_length (lo hi : Int) : (pyRange lo hi).length = (hi - lo).toNat := by
  rw [pyRange, List.length_map, List.length_range]

theorem pyRange_empty (lo hi : Int) (h : hi ≤ lo) : pyRange lo hi = [] := by
  rw [pyRange]
  have h0 : (hi - lo).toNat = 0 := by omega
  rw [h0]
  rfl

theorem pyRange_eq_cons (lo hi : Int) (h : lo < hi) :
    pyRange lo hi = lo :: pyRange (lo + 1) hi := by
  have hk : (hi - lo).toNat = (hi - (lo + 1)).toNat + 1 := by omega
  simp only [pyRange, hk, List.range_succ_eq_map, List.map_cons, List.map_map]
  congr 1
  · simp
  · apply List.map_congr_left
    intro i hi2
    simp only [Function.comp_apply, Int.ofNat_eq_coe]
    push_cast
    ring

theorem pyRange_mem (lo hi a : Int) : a ∈ pyRange lo hi ↔ lo ≤ a ∧ a < hi := by
  simp only [pyRange, List.mem_map, List.mem_range, Int.ofNat_eq_coe]
  constructor
  · rintro ⟨i, hi2, rfl⟩
    omega
  · intro h
    exact ⟨(a - lo).toNat, by omega, by omega⟩

theorem pyRange_sorted (lo hi : Int) : List.Sorted (· ≤ ·) (pyRange lo hi) := by
  simp only [pyRange]
  apply List.pairwise_map.mpr
  have h := List.pairwise_lt_range (hi - lo).toNat
  exact h.imp (fun hij => by simp only [Int.ofNat_eq_coe]; omega)

theorem foldl_min_of_le (xs : List Int) :
    ∀ x : Int, (∀ a ∈ xs, x ≤ a) → xs.foldl min x = x := by
  induction xs with
  | nil => intro x h; rfl
  | cons a xs ih =>
    intro x h
    have hxa : min x a = x := min_eq_left (h a (by simp))
    simp only [List.foldl_cons, hxa]
    exact ih x (fun b hb => h b (by simp [hb]))

theorem pyMin_pyRange (k : Nat) (lo : Int) (h : 1 ≤ k) :
    pyMin (pyRange lo (lo + k)) = lo := by
  rw [pyRange_eq_cons lo (lo + k) (by omega)]
  simp only [pyMin]
  apply foldl_min_of_le
  intro a ha
  rw [pyRange_mem] at ha
  omega

theorem pyMax_pyRange : ∀ (k : Nat) (lo : Int),
    pyMax (pyRange lo (lo + (k : Nat) + 1)) = lo + k := by
  intro k
  induction k with
  | zero =>
    intro lo
    rw [show lo + ((0 : Nat) : Int) + 1 = lo + 1 from by push_cast; ring]
    rw [pyRange_eq_cons lo (lo + 1) (by omega)]
    rw [pyRange_empty (lo + 1) (lo + 1) le_rfl]
    simp [pyMax]
  | succ k ih =>
    intro lo
    rw [pyRange_eq_cons lo (lo + ((k + 1 : Nat) : Int) + 1) (by push_cast; omega)]
    have hrw : lo + ((k + 1 : Nat) : Int) + 1 = (lo + 1) + (k : Nat) + 1 := by
      push_cast
      ring
    rw [hrw]
    have hih := ih (lo + 1)
    rw [pyRange_eq_cons (lo + 1) ((lo + 1) + (k : Nat) + 1) (by push_cast; omega)] at hih ⊢
    simp only [pyMax, List.foldl_cons] at hih ⊢
    rw [max_eq_right (by omega : lo ≤ lo + 1), hih]
    push_cast
    ring

theorem assignSlices_getElem (size : Nat) (data : List Nat) :
    ∀ (vs : List Variable) (ix : Nat) (vars2 : List Variable),
      assignSlices size data vs ix = some vars2 →
      ∀ j, j < vs.length →
        ∃ v w, vs[j]? = some v ∧
          setVal v.type ((data.drop (4 + size * (ix + j))).take size) = some w ∧
          vars2[j]? = some { v with val := some w } := by
  intro vs
  induction vs with
  | nil =>
    intro ix vars2 h j hj
    simp at hj
  | cons v vs ih =>
    intro ix vars2 h j hj
    rw [assignSlices] at h
    cases hsv : setVal v.type ((data.drop (4 + size * ix)).take size) with
    | none =>
      rw [hsv] at h
      simp at h
    | some w =>
      rw [hsv] at h
      cases hrec : assignSlices size data vs (ix + 1) with
      | none =>
        rw [hrec] at h
        simp at h
      | some rest =>
        rw [hrec] at h
        simp only [Option.map_some', Option.some.injEq] at h
        subst h
        cases j with
        | zero =>
          refine ⟨v, w, by simp, ?_, by simp⟩
          simpa using hsv
        | succ j =>
          have hj2 : j < vs.length := by simpa using hj
          obtain ⟨v2, w2, h1, h2, h3⟩ := ih (ix + 1) rest hrec j hj2
          refine ⟨v2, w2, by simpa using h1, ?_, by simpa using h3⟩
          have hix : ix + 1 + j = ix + (j + 1) := by omega
          rw [hix] at h2
          exact h2

/-- Convenience constructor for the concrete controller answers of the
read_variables scenarios. -/
def mkAns (st : Nat) (d : List Nat) : AnsPacket :=
  { data_size := d.length, division := 1, ack := 1, req_id := 0, block_no := 0
    service := 0x8e, status := st, added_status_size := 0, added_status := 0
    data := d }

/-- A controller that answers the plural Integer command 0x303 with the
count 2 followed by the values 500 and 600, and any single Integer read
with the value 300. -/
def demoOracleInt (req : ReqPacket) : AnsPacket :=
  if req.cmd_no = 0x303 then mkAns 0 ([2, 0, 0, 0] ++ u16le 500 ++ u16le 600)
  else mkAns 0 (u16le 300)

/-- C2 counterexample: a maximal run of two consecutive ROBOT_POSITION
variables — a non-string type — is not read with a plural request:
computing the type's wire width evaluates
Variable(type, 0, 0).val_to_bytes(), which raises for a position type
holding the int 0, so read_variables raises before transmitting any
packet at all. -/
theorem read_variables_position_run_raises :
    (read_variables (fun _ => mkAns 0 [])
      [⟨.robotPosition, 5, none⟩, ⟨.robotPosition, 6, none⟩]).1 = [] ∧
    (read_variables (fun _ => mkAns 0 [])
      [⟨.robotPosition, 5, none⟩, ⟨.robotPosition, 6, none⟩]).2.2 =
      .error "TypeError in val_to_bytes" := by
  decide

/-- C2 (amended): every maximal run of two or more consecutive addresses of
a fixed-width scalar type — IO, REGISTER, BYTE, INTEGER, DOUBLE or REAL,
exactly the types whose wire-width computation val_to_bytes(int 0)
succeeds — is read with exactly one plural request whose command number is
the type's opcode plus 0x288, whose instance is the run's smallest address
and whose 4-byte payload is the run's length rounded up to the next even
number when the wire width is 1 byte; the answer payload is a 4-byte count
followed by the values packed contiguously at the fixed width, the i-th
width-sized slice being stored into the i-th variable of the run.  For the
input Integer 3, 5, 6, read_variables issues one single-variable read for
3 and one plural read for the run 5, 6, each variable keeping its own
address. -/
theorem read_consecutive_scalar_plural :
    (∀ (oracle : ReqPacket → AnsPacket) (t : VType) (sizeBytes : List Nat)
       (vars : List Variable) (start : Int) (n : Nat),
      valToBytes t (.intv 0) = some sizeBytes →
      2 ≤ n →
      vars.map Variable.type = List.replicate n t →
      vars.map Variable.num = pyRange start (start + (n : Nat)) →
      (read_consecutive_variables oracle vars).2 =
        [{ cmd_no := t.code + 0x288, inst := start, attr := 0, service := 0x33
           data := u32le (if sizeBytes.length = 1 ∧ n % 2 = 1 then n + 1 else n) }] ∧
      (∀ req, (read_consecutive_variables oracle vars).2 = [req] →
        ((oracle req).status ≠ ERROR_SUCCESS →
          (read_consecutive_variables oracle vars).1 =
            .ok ((oracle req).status, vars)) ∧
        (∀ vars2,
          (read_consecutive_variables oracle vars).1 = .ok (ERROR_SUCCESS, vars2) →
          ∀ j, j < n →
            ∃ v w, vars[j]? = some v ∧
              setVal v.type (((oracle req).data.drop
                (4 + sizeBytes.length * j)).take sizeBytes.length) = some w ∧
              vars2[j]? = some { v with val := some w }))) ∧
    read_variables demoOracleInt
      [⟨.integer, 3, none⟩, ⟨.integer, 5, none⟩, ⟨.integer, 6, none⟩] =
      ([{ cmd_no := 0x7b, inst := 3, attr := 1, service := 0x0e, data := [] },
        { cmd_no := 0x303, inst := 5, attr := 0, service := 0x33, data := [2, 0, 0, 0] }],
       [(3, ⟨.integer, 3, some (.intv 300)⟩), (5, ⟨.integer, 5, some (.intv 500)⟩),
        (6, ⟨.integer, 6, some (.intv 600)⟩)],
       .ok ERROR_SUCCESS) := by
  constructor
  · intro oracle t sizeBytes vars start n hvtb hn hty hnum
    have hlen : vars.length = n := by
      have h2 := congrArg List.length hty
      simpa using h2
    cases vars with
    | nil =>
      simp at hlen
      omega
    | cons var rest =>
    have hvt : var.type = t := by
      have h2 := congrArg List.head? hty
      cases n with
      | zero => omega
      | succ m =>
        rw [List.replicate_succ] at h2
        simpa using h2
    have hvn : var.num = start := by
      have h2 := congrArg List.head? hnum
      rw [pyRange_eq_cons start (start + (n : Nat)) (by push_cast; omega)] at h2
      simpa using h2
    have hallty : ∀ v ∈ var :: rest, v.type = t := by
      intro v hv
      exact List.eq_of_mem_replicate (hty ▸ List.mem_map_of_mem Variable.type hv)
    have hc1 : ¬ ((var :: rest).any (fun v => decide (v.type ≠ t)) = true) := by
      rw [Bool.not_eq_true, List.any_eq_false]
      intro v hv
      simpa using hallty v hv
    have hsortnums : pySorted ((var :: rest).map Variable.num) =
        (var :: rest).map Variable.num := by
      rw [hnum]
      exact List.Sorted.insertionSort_eq (pyRange_sorted _ _)
    have hmin : pyMin ((var :: rest).map Variable.num) = start := by
      rw [hnum]
      exact pyMin_pyRange n start (by omega)
    have hmax : pyMax ((var :: rest).map Variable.num) = start + (n : Nat) - 1 := by
      rw [hnum]
      have h2 := pyMax_pyRange (n - 1) start
      rw [show start + ((n - 1 : Nat) : Int) + 1 = start + (n : Nat) from by push_cast; omega]
        at h2
      rw [h2]
      push_cast
      omega
    have hrange : pyRange (pyMin ((var :: rest).map Variable.num))
        (pyMax ((var :: rest).map Variable.num) + 1) = (var :: rest).map Variable.num := by
      rw [hmin, hmax, hnum,
        show start + (n : Nat) - 1 + 1 = start + (n : Nat) from by ring]
    have hc2 : ¬ (pySorted ((var :: rest).map Variable.num) ≠
        pyRange (pyMin ((var :: rest).map Variable.num))
          (pyMax ((var :: rest).map Variable.num) + 1)) := by
      intro hne
      exact hne (by rw [hsortnums, hrange])
    have hred : read_consecutive_variables oracle (var :: rest) =
        (if (oracle { cmd_no := t.code + 0x288, inst := start, attr := 0, service := 0x33
                      data := u32le (if sizeBytes.length = 1 ∧ n % 2 = 1
                                     then n + 1 else n) }).status ≠ ERROR_SUCCESS
         then (.ok ((oracle { cmd_no := t.code + 0x288, inst := start, attr := 0
                              service := 0x33
                              data := u32le (if sizeBytes.length = 1 ∧ n % 2 = 1
                                             then n + 1 else n) }).status, var :: rest),
               [{ cmd_no := t.code + 0x288, inst := start, attr := 0, service := 0x33
                  data := u32le (if sizeBytes.length = 1 ∧ n % 2 = 1 then n + 1 else n) }])
         else
           match assignSlices sizeBytes.length
               (oracle { cmd_no := t.code + 0x288, inst := start, attr := 0, service := 0x33
                         data := u32le (if sizeBytes.length = 1 ∧ n % 2 = 1
                                        then n + 1 else n) }).data (var :: rest) 0 with
           | some vars2 =>
             (.ok ((oracle { cmd_no := t.code + 0x288, inst := start, attr := 0
                             service := 0x33
                             data := u32le (if sizeBytes.length = 1 ∧ n % 2 = 1
                                            then n + 1 else n) }).status, vars2),
              [{ cmd_no := t.code + 0x288, inst := start, attr := 0, service := 0x33
                 data := u32le (if sizeBytes.length = 1 ∧ n % 2 = 1 then n + 1 else n) }])
           | none =>
             (.error "struct.error in set_val",
              [{ cmd_no := t.code + 0x288, inst := start, attr := 0, service := 0x33
                 data := u32le (if sizeBytes.length = 1 ∧ n % 2 = 1 then n + 1 else n) }])) := by
      simp only [read_consecutive_variables, hvt, hvtb]
      rw [if_neg hc1, if_neg hc2]
      simp only [List.length_cons, hvn]
      have hlen2 : rest.length + 1 = n := by simpa using hlen
      rw [hlen2]
    have htr : (read_consecutive_variables oracle (var :: rest)).2 =
        [{ cmd_no := t.code + 0x288, inst := start, attr := 0, service := 0x33
           data := u32le (if sizeBytes.length = 1 ∧ n % 2 = 1 then n + 1 else n) }] := by
      rw [hred]
      generalize (if sizeBytes.length = 1 ∧ n % 2 = 1 then n + 1 else n) = cnt
      split
      · rfl
      · split <;> rfl
    refine ⟨htr, ?_⟩
    · intro req hreq2
      have hreqeq : req = { cmd_no := t.code + 0x288, inst := start, attr := 0
                            service := 0x33
                            data := u32le (if sizeBytes.length = 1 ∧ n % 2 = 1
                                           then n + 1 else n) } := by
        have h6 := htr.symm.trans hreq2
        simpa using h6.symm
      subst hreqeq
      constructor
      · intro hst
        rw [hred, if_pos hst]
      · intro vars2 hok j hj
        by_cases hst : (oracle { cmd_no := t.code + 0x288, inst := start, attr := 0
                                 service := 0x33
                                 data := u32le (if sizeBytes.length = 1 ∧ n % 2 = 1
                                                then n + 1 else n) }).status ≠ ERROR_SUCCESS
        · rw [hred, if_pos hst] at hok
          simp only [Except.ok.injEq, Prod.mk.injEq] at hok
          exact absurd hok.1 hst
        · rw [hred, if_neg hst] at hok
          push_neg at hst
          cases ha : assignSlices sizeBytes.length
              (oracle { cmd_no := t.code + 0x288, inst := start, attr := 0, service := 0x33
                        data := u32le (if sizeBytes.length = 1 ∧ n % 2 = 1
                                       then n + 1 else n) }).data (var :: rest) 0 with
          | none =>
            rw [ha] at hok
            simp at hok
          | some vars2b =>
            rw [ha] at hok
            simp only [Except.ok.injEq, Prod.mk.injEq] at hok
            have hv2 : vars2b = vars2 := hok.2
            subst hv2
            have hj2 : j < (var :: rest).length := by
              rw [hlen]
              exact hj
            have h5 := assignSlices_getElem sizeBytes.length _ (var :: rest) 0 vars2b ha j hj2
            simpa using h5
  · decide

theorem read_consecutive_scalar_plural_witness :
    (read_consecutive_variables demoOracleInt
        [⟨.integer, 5, none⟩, ⟨.integer, 6, none⟩]).2 =
      [{ cmd_no := VType.integer.code + 0x288, inst := 5, attr := 0, service := 0x33
         data := u32le (if ([0, 0] : List Nat).length = 1 ∧ 2 % 2 = 1 then 2 + 1 else 2) }] ∧
    (∀ req, (read_consecutive_variables demoOracleInt
        [⟨.integer, 5, none⟩, ⟨.integer, 6, none⟩]).2 = [req] →
      ((demoOracleInt req).status ≠ ERROR_SUCCESS →
        (read_consecutive_variables demoOracleInt
          [⟨.integer, 5, none⟩, ⟨.integer, 6, none⟩]).1 =
          .ok ((demoOracleInt req).status, [⟨.integer, 5, none⟩, ⟨.integer, 6, none⟩])) ∧
      (∀ vars2,
        (read_consecutive_variables demoOracleInt
          [⟨.integer, 5, none⟩, ⟨.integer, 6, none⟩]).1 = .ok (ERROR_SUCCESS, vars2) →
        ∀ j, j < 2 →
          ∃ v w, ([⟨.integer, 5, none⟩, ⟨.integer, 6, none⟩] : List Variable)[j]? = some v ∧
            setVal v.type (((demoOracleInt req).data.drop
              (4 + ([0, 0] : List Nat).length * j)).take ([0, 0] : List Nat).length) = some w ∧
            vars2[j]? = some { v with val := some w })) :=
  read_consecutive_scalar_plural.1 demoOracleInt .integer [0, 0]
    [⟨.integer, 5, none⟩, ⟨.integer, 6, none⟩] 5 2
    (by decide) (by decide) (by decide) (by decide)

/-- Re-rooting of a loop result: prepend the trace transmitted so far and
OR the status accumulated so far into a success status (an escaping
exception keeps its payload). -/
def shiftRes (ret : Nat) (trace : List ReqPacket) :
    List ReqPacket × List (Int × Variable) × Except String Nat →
    List ReqPacket × List (Int × Variable) × Except String Nat
  | (tr0, d0, .ok st0) => (trace ++ tr0, d0, .ok (ret ||| st0))
  | (tr0, d0, .error e) => (trace ++ tr0, d0, .error e)

theorem shiftRes_comp (ret r0 : Nat) (trace tr0 : List ReqPacket)
    (c : List ReqPacket × List (Int × Variable) × Except String Nat) :
    shiftRes (ret ||| r0) (trace ++ tr0) c = shiftRes ret trace (shiftRes r0 tr0 c) := by
  obtain ⟨tr1, d1, ex⟩ := c
  cases ex <;> simp [shiftRes, Nat.lor_assoc]

theorem stringRun_shift (oracle : ReqPacket → AnsPacket) :
    ∀ (ks : List Int) (dict : List (Int × Variable)) (ret : Nat)
      (trace : List ReqPacket),
      stringRun oracle ks dict ret trace =
        shiftRes ret trace (stringRun oracle ks dict 0 []) := by
  intro ks
  induction ks with
  | nil =>
    intro dict ret trace
    simp [stringRun, shiftRes]
  | cons k ks ih =>
    intro dict ret trace
    simp only [stringRun]
    cases hdg : dictGet dict k with
    | none => simp [shiftRes]
    | some v =>
      dsimp only
      rcases hrv : read_variable oracle v with ⟨ex, tr1⟩
      cases ex with
      | error e => simp [shiftRes]
      | ok p =>
        obtain ⟨st1, v2⟩ := p
        dsimp only
        rw [ih (dictSet dict v2) (ret ||| st1) (trace ++ tr1),
            ih (dictSet dict v2) (0 ||| st1) ([] ++ tr1)]
        rw [Nat.zero_or, List.nil_append]
        exact shiftRes_comp ret st1 trace tr1 _

theorem readRunsLoop_shift (oracle : ReqPacket → AnsPacket) :
    ∀ (runs : List (List Int)) (dict : List (Int × Variable)) (ret : Nat)
      (trace : List ReqPacket),
      readRunsLoop oracle runs dict ret trace =
        shiftRes ret trace (readRunsLoop oracle runs dict 0 []) := by
  intro runs
  induction runs with
  | nil =>
    intro dict ret trace
    simp [readRunsLoop, shiftRes]
  | cons run runs ih =>
    intro dict ret trace
    simp only [readRunsLoop]
    cases run with
    | nil => exact ih dict ret trace
    | cons k krest =>
      dsimp only
      by_cases hlen1 : (k :: krest).length = 1
      · rw [if_pos hlen1]
        rw [if_pos hlen1]
        cases hdg : dictGet dict k with
        | none => simp [shiftRes]
        | some v =>
          dsimp only
          rcases hrv : read_variable oracle v with ⟨ex, tr1⟩
          cases ex with
          | error e => simp [shiftRes]
          | ok p =>
            obtain ⟨st1, v2⟩ := p
            dsimp only
            rw [ih (dictSet dict v2) (ret ||| st1) (trace ++ tr1),
                ih (dictSet dict v2) (0 ||| st1) ([] ++ tr1)]
            rw [Nat.zero_or, List.nil_append]
            exact shiftRes_comp ret st1 trace tr1 _
      · rw [if_neg hlen1]
        rw [if_neg hlen1]
        by_cases hstr : (dictGet dict k).map Variable.type = some VType.string
        · rw [if_pos hstr]
          rw [if_pos hstr]
          rw [stringRun_shift oracle (k :: krest) dict ret trace]
          rcases hc : stringRun oracle (k :: krest) dict 0 [] with ⟨tr0, d0, ex⟩
          cases ex with
          | error e => simp [shiftRes]
          | ok r0 =>
            simp only [shiftRes]
            rw [ih d0 (ret ||| r0) (trace ++ tr0), ih d0 r0 tr0]
            exact shiftRes_comp ret r0 trace tr0 _
        · rw [if_neg hstr]
          rw [if_neg hstr]
          cases hm : (k :: krest).mapM (dictGet dict) with
          | none => simp [shiftRes]
          | some vlist =>
            dsimp only
            rcases hrc : read_consecutive_variables oracle vlist with ⟨ex, tr1⟩
            cases ex with
            | error e => simp [shiftRes]
            | ok p =>
              obtain ⟨st1, vlist2⟩ := p
              dsimp only
              rw [ih (dictSetAll dict vlist2) (ret ||| st1) (trace ++ tr1),
                  ih (dictSetAll dict vlist2) (0 ||| st1) ([] ++ tr1)]
              rw [Nat.zero_or, List.nil_append]
              exact shiftRes_comp ret st1 trace tr1 _

/-- A controller that fails any single variable read with status 4 but
answers the plural Integer command with the values 500 and 600. -/
def demoOracleFailSingle (req : ReqPacket) : AnsPacket :=
  if req.cmd_no = 0x303 then mkAns 0 ([2, 0, 0, 0] ++ u16le 500 ++ u16le 600)
  else mkAns 4 []

/-- A controller that answers any single Integer read with 300 but fails
the plural command with status 8. -/
def demoOracleFailPlural (req : ReqPacket) : AnsPacket :=
  if req.cmd_no = 0x303 then mkAns 8 []
  else mkAns 0 (u16le 300)

/-- C3: the status read_variables returns is the bitwise OR of the statuses
of its sub-reads: the run loop satisfies
result(ret, trace) = shiftRes ret trace result(0, []), i.e. every sub-read's
status is ORed into the accumulator in turn; concretely, when the single
read of Integer 3 fails with status 4 the run 5, 6 is still attempted, its
decoded values stay written and the aggregate status is 4 = 0 ||| 4 ||| 0,
and when the plural read fails with status 8 after a successful single
read, the single read's value 300 stays written while the aggregate status
is 8. -/
theorem read_variables_status_or :
    (∀ (oracle : ReqPacket → AnsPacket) (runs : List (List Int))
       (dict : List (Int × Variable)) (ret : Nat) (trace : List ReqPacket),
      readRunsLoop oracle runs dict ret trace =
        shiftRes ret trace (readRunsLoop oracle runs dict 0 [])) ∧
    read_variables demoOracleFailSingle
      [⟨.integer, 3, none⟩, ⟨.integer, 5, none⟩, ⟨.integer, 6, none⟩] =
      ([{ cmd_no := 0x7b, inst := 3, attr := 1, service := 0x0e, data := [] },
        { cmd_no := 0x303, inst := 5, attr := 0, service := 0x33, data := [2, 0, 0, 0] }],
       [(3, ⟨.integer, 3, none⟩), (5, ⟨.integer, 5, some (.intv 500)⟩),
        (6, ⟨.integer, 6, some (.intv 600)⟩)],
       .ok 4) ∧
    read_variables demoOracleFailPlural
      [⟨.integer, 3, none⟩, ⟨.integer, 5, none⟩, ⟨.integer, 6, none⟩] =
      ([{ cmd_no := 0x7b, inst := 3, attr := 1, service := 0x0e, data := [] },
        { cmd_no := 0x303, inst := 5, attr := 0, service := 0x33, data := [2, 0, 0, 0] }],
       [(3, ⟨.integer, 3, some (.intv 300)⟩), (5, ⟨.integer, 5, none⟩),
        (6, ⟨.integer, 6, none⟩)],
       .ok 8) := by
  refine ⟨readRunsLoop_shift, by decide, by decide⟩

/-- ASCII uppercasing of one byte (str.upper restricted to the ASCII range
job names are drawn from). -/
def asciiUpper (b : Nat) : Nat := if 97 ≤ b ∧ b ≤ 122 then b - 32 else b

/-- The suffix handling of FS100.select_job: a job name whose uppercased
form ends in ".JBI" loses its last four bytes. -/
def stripJBI (job_name : List Nat) : List Nat :=
  if 4 ≤ job_name.length ∧
     (job_name.map asciiUpper).drop (job_name.length - 4) = [46, 74, 66, 73]
  then job_name.take (job_name.length - 4) else job_name

/-- FS100.select_job over the job name's UTF-8 bytes: after suffix
stripping, a name longer than 32 bytes raises ValueError before anything is
transmitted; otherwise the name is zero-padded to 32 bytes, the line number
appended as 4 little-endian bytes, and one request with command 0x87
issued, whose status is returned. -/
def select_job (oracle : ReqPacket → AnsPacket) (job_name : List Nat)
    (line_num : Nat) : Except String (Nat × List ReqPacket) :=
  if 32 < (stripJBI job_name).length then .error "Job name is too long"
  else
    .ok ((oracle { cmd_no := 0x87, inst := 1, attr := 0, service := 0x02
                   data := stripJBI job_name ++
                     List.replicate (32 - (stripJBI job_name).length) 0 ++
                     u32le line_num }).status,
         [{ cmd_no := 0x87, inst := 1, attr := 0, service := 0x02
            data := stripJBI job_name ++
              List.replicate (32 - (stripJBI job_name).length) 0 ++
              u32le line_num }])

/-- FS100.show_text_on_pendant over the text's UTF-8 bytes: more than 30
bytes raise ValueError before anything is transmitted; otherwise the text
is zero-padded to 32 bytes and one request with command 0x85 issued. -/
def show_text_on_pendant (oracle : ReqPacket → AnsPacket) (text : List Nat) :
    Except String (Nat × List ReqPacket) :=
  if 30 < text.length then .error "Text is too long"
  else
    .ok ((oracle { cmd_no := 0x85, inst := 1, attr := 1, service := 0x10
                   data := text ++ List.replicate (32 - text.length) 0 }).status,
         [{ cmd_no := 0x85, inst := 1, attr := 1, service := 0x10
            data := text ++ List.replicate (32 - text.length) 0 }])

/-- C7 counterexample: for the input Integer 1, Integer 5, String 6 the
mismatched-type batch violation in the run 5, 6 is detected only after the
single read for address 1 has been transmitted and its decoded value
stored, so the InvalidArgument condition is neither detected before all of
read_variables' network I/O nor reported without side effects. -/
theorem read_variables_mixed_type_after_io :
    read_variables demoOracleInt
      [⟨.integer, 1, none⟩, ⟨.integer, 5, none⟩, ⟨.string, 6, none⟩] =
      ([{ cmd_no := 0x7b, inst := 1, attr := 1, service := 0x0e, data := [] }],
       [(1, ⟨.integer, 1, some (.intv 300)⟩), (5, ⟨.integer, 5, none⟩),
        (6, ⟨.string, 6, none⟩)],
       .error "Input list must contain var objects of the same type") := by
  decide

/-- C7 (amended): each InvalidArgument check guards its own operation
before that operation transmits anything: _read_consecutive_variables
rejects an empty list, a width-computation failure, mixed types and
non-consecutive numbers with an empty transmit trace and the variables
untouched; select_job rejects an oversized job name and
show_text_on_pendant an oversized text before consulting the controller at
all; send_file rejects empty content before transmitting.  (read_variables
as a whole may still have performed I/O for earlier runs when a later
run's batch input is found invalid.) -/
theorem invalid_argument_checks_precede_io :
    (∀ (oracle : ReqPacket → AnsPacket),
      read_consecutive_variables oracle [] =
        (.error "Input list cannot be empty", [])) ∧
    (∀ (oracle : ReqPacket → AnsPacket) (var : Variable) (rest : List Variable),
      valToBytes var.type (.intv 0) = none →
      read_consecutive_variables oracle (var :: rest) =
        (.error "TypeError in val_to_bytes", [])) ∧
    (∀ (oracle : ReqPacket → AnsPacket) (var : Variable) (rest : List Variable)
       (sizeBytes : List Nat),
      valToBytes var.type (.intv 0) = some sizeBytes →
      (var :: rest).any (fun v => decide (v.type ≠ var.type)) = true →
      read_consecutive_variables oracle (var :: rest) =
        (.error "Input list must contain var objects of the same type", [])) ∧
    (∀ (oracle : ReqPacket → AnsPacket) (var : Variable) (rest : List Variable)
       (sizeBytes : List Nat),
      valToBytes var.type (.intv 0) = some sizeBytes →
      (var :: rest).any (fun v => decide (v.type ≠ var.type)) = false →
      pySorted ((var :: rest).map Variable.num) ≠
        pyRange (pyMin ((var :: rest).map Variable.num))
          (pyMax ((var :: rest).map Variable.num) + 1) →
      read_consecutive_variables oracle (var :: rest) =
        (.error "Input list must contain var objects with consecutive numbers", [])) ∧
    (∀ (oracle : ReqPacket → AnsPacket) (job_name : List Nat) (line_num : Nat),
      32 < (stripJBI job_name).length →
      select_job oracle job_name line_num = .error "Job name is too long") ∧
    (∀ (oracle : ReqPacket → AnsPacket) (text : List Nat),
      30 < text.length →
      show_text_on_pendant oracle text = .error "Text is too long") ∧
    (∀ (oracle : Nat → AnsPacket) (filename : List Nat) (fuel : Nat),
      send_file oracle filename [] fuel = .error "An empty file") := by
  refine ⟨fun oracle => rfl, ?_, ?_, ?_, ?_, ?_, fun oracle filename fuel => rfl⟩
  · intro oracle var rest hnone
    simp only [read_consecutive_variables, hnone]
  · intro oracle var rest sizeBytes hsome hany
    simp only [read_consecutive_variables, hsome]
    rw [if_pos hany]
  · intro oracle var rest sizeBytes hsome hany hsort
    simp only [read_consecutive_variables, hsome]
    rw [if_neg (by rw [hany]; exact Bool.false_ne_true), if_pos hsort]
  · intro oracle job_name line_num hlong
    rw [select_job, if_pos hlong]
  · intro oracle text hlong
    rw [show_text_on_pendant, if_pos hlong]

theorem invalid_argument_checks_precede_io_witness :
    show_text_on_pendant (fun _ => mkAns 0 []) (List.replicate 31 65) =
      .error "Text is too long" ∧
    read_consecutive_variables (fun _ => mkAns 0 [])
      [⟨.integer, 5, none⟩, ⟨.string, 6, none⟩] =
      (.error "Input list must contain var objects of the same type", []) :=
  ⟨invalid_argument_checks_precede_io.2.2.2.2.2.1 (fun _ => mkAns 0 [])
     (List.replicate 31 65) (by decide),
   invalid_argument_checks_precede_io.2.2.1 (fun _ => mkAns 0 [])
     ⟨.integer, 5, none⟩ [⟨.string, 6, none⟩] [0, 0] (by decide) (by decide)⟩

/-- Modelled from the spec: one waypoint of the MotionSequencer (absent
from src/), an ordered 7-tuple of signed integers (cartesian pose or pulse
position). -/
def Waypoint : Type := Int × Int × Int × Int × Int × Int × Int

/-- Modelled from the spec: the MotionSequencer states.  Idle, Moving and
Cancelling are the transient states of the background context; a finished
run ends in Done or Failed. -/
inductive SeqState where
  | Idle
  | Moving
  | Cancelling
  | Done
  | Failed
deriving DecidableEq, Repr

/-- Modelled from the spec: the calls the sequencer makes to the status
callback — the index of a waypoint reached, the error indicator, and the
distinguished finished marker. -/
inductive SeqEvent where
  | reached (i : Nat)
  | failed
  | finished
deriving DecidableEq, Repr

/-- Modelled from the spec: how one polling loop of the sequencer ends. -/
inductive PollOutcome where
  | stopped
  | cancelled
  | statusFailed
deriving DecidableEq, Repr

/-- Modelled from the spec: the status-polling loop of the MotionSequencer
(absent from src/).  At each global poll step t the loop first observes the
cancellation flag (cooperative cancellation, a flag checked at the top of
each iteration, never preemptive), then whether the status read succeeded,
then whether the controller still reports running, looping while it does;
fuel bounds the iterations and the step counter models the fixed polling
interval. -/
def pollLoop (cancel statusOk running : Nat → Bool) :
    Nat → Nat → Option (PollOutcome × Nat)
  | _, 0 => none
  | t, fuel + 1 =>
    if cancel t then some (.cancelled, t + 1)
    else if ¬ statusOk t then some (.statusFailed, t + 1)
    else if ¬ running t then some (.stopped, t + 1)
    else pollLoop cancel statusOk running (t + 1) fuel

/-- Modelled from the spec: the background execution of the MotionSequencer
(absent from src/).  For each waypoint in order: issue the move command
(moveOk gives the per-index outcome); on failure invoke the callback with
the error indicator and stop in Failed; on success invoke the callback with
the waypoint's index, then poll until the controller reports not-running
before advancing; a cancellation observed during polling performs the
hold-stop sequence and ends the run in Done (via Cancelling); a status-read
failure invokes the error callback and ends in Failed.  After all waypoints
the callback receives the finished marker and the run ends in Done. -/
def seqRun (moveOk : Nat → Bool) (cancel statusOk running : Nat → Bool) :
    List Waypoint → Nat → Nat → Nat → Option (List SeqEvent × SeqState)
  | [], _, _, _ => some ([.finished], .Done)
  | _ :: ws, i, t, fuel =>
    if ¬ moveOk i then some ([.failed], .Failed)
    else
      match pollLoop cancel statusOk running t fuel with
      | none => none
      | some (.cancelled, _) => some ([.reached i], .Done)
      | some (.statusFailed, _) => some ([.reached i, .failed], .Failed)
      | some (.stopped, t2) =>
        (seqRun moveOk cancel statusOk running ws (i + 1) t2 fuel).map
          (fun r => (.reached i :: r.1, r.2))

/-- Modelled from the spec: start(waypoints, statusCallback) spawns the
background run at the first waypoint and poll step 0; at most one sequence
runs per client instance, which the single sequential run models. -/
def sequencer_start (moveOk cancel statusOk running : Nat → Bool)
    (wps : List Waypoint) (fuel : Nat) : Option (List SeqEvent × SeqState) :=
  seqRun moveOk cancel statusOk running wps 0 0 fuel

theorem pollLoop_immediate_stop (cancel statusOk running : Nat → Bool)
    (t fuel : Nat) (hc : cancel t = false) (hs : statusOk t = true)
    (hr : running t = false) :
    pollLoop cancel statusOk running t (fuel + 1) = some (.stopped, t + 1) := by
  simp [pollLoop, hc, hs, hr]

theorem pollLoop_cancel_observed (statusOk running : Nat → Bool) (T : Nat)
    (hok : ∀ u, statusOk u = true) (hrun : ∀ u, running u = true) :
    ∀ (fuel t : Nat), t ≤ T → T - t < fuel →
      pollLoop (fun u => decide (T ≤ u)) statusOk running t fuel =
        some (.cancelled, T + 1) := by
  intro fuel
  induction fuel with
  | zero =>
    intro t h1 h2
    omega
  | succ fuel ih =>
    intro t h1 h2
    by_cases ht : T ≤ t
    · have hteq : t = T := by omega
      subst hteq
      simp [pollLoop, ht]
    · have hstep := ih (t + 1) (by omega) (by omega)
      simp only [pollLoop, decide_eq_true_eq]
      rw [if_neg ht, if_neg (by simp [hok t]), if_neg (by simp [hrun t])]
      exact hstep

theorem seqRun_all_success (moveOk statusOk : Nat → Bool) (fuel : Nat)
    (hf : 1 ≤ fuel) (hmv : ∀ j, moveOk j = true) (hok : ∀ u, statusOk u = true) :
    ∀ (wps : List Waypoint) (i t : Nat),
      seqRun moveOk (fun _ => false) statusOk (fun _ => false) wps i t fuel =
        some ((List.range wps.length).map (fun j => SeqEvent.reached (i + j)) ++
          [SeqEvent.finished], SeqState.Done) := by
  intro wps
  induction wps with
  | nil =>
    intro i t
    simp [seqRun]
  | cons w ws ih =>
    intro i t
    obtain ⟨fuel2, rfl⟩ : ∃ f2, fuel = f2 + 1 := ⟨fuel - 1, by omega⟩
    simp only [seqRun, hmv i, Bool.not_true]
    rw [if_neg (by simp)]
    rw [pollLoop_immediate_stop _ _ _ t fuel2 rfl (hok t) rfl]
    dsimp only
    rw [ih (i + 1) (t + 1)]
    have hmap : (List.range (w :: ws).length).map (fun j => SeqEvent.reached (i + j)) =
        SeqEvent.reached i ::
          (List.range ws.length).map (fun j => SeqEvent.reached (i + 1 + j)) := by
      simp only [List.length_cons, List.range_succ_eq_map, List.map_cons, List.map_map,
        Nat.add_zero]
      congr 1
      apply List.map_congr_left
      intro j hj
      simp only [Function.comp_apply]
      congr 1
      omega
    rw [hmap]
    rfl

theorem seqRun_fail_at (moveOk statusOk : Nat → Bool) (fuel : Nat)
    (hf : 1 ≤ fuel) (hok : ∀ u, statusOk u = true) :
    ∀ (wps : List Waypoint) (k i t : Nat), k < wps.length →
      (∀ j, j < k → moveOk (i + j) = true) → moveOk (i + k) = false →
      seqRun moveOk (fun _ => false) statusOk (fun _ => false) wps i t fuel =
        some ((List.range k).map (fun j => SeqEvent.reached (i + j)) ++
          [SeqEvent.failed], SeqState.Failed) := by
  intro wps
  induction wps with
  | nil =>
    intro k i t hk
    simp at hk
  | cons w ws ih =>
    intro k i t hk hmv hfail
    obtain ⟨fuel2, rfl⟩ : ∃ f2, fuel = f2 + 1 := ⟨fuel - 1, by omega⟩
    cases k with
    | zero =>
      simp only [seqRun]
      rw [if_pos (by simpa using hfail)]
      simp
    | succ k =>
      have hmv0 : moveOk i = true := by simpa using hmv 0 (by omega)
      simp only [seqRun, hmv0, Bool.not_true]
      rw [if_neg (by simp)]
      rw [pollLoop_immediate_stop _ _ _ t fuel2 rfl (hok t) rfl]
      dsimp only
      rw [ih k (i + 1) (t + 1) (by simpa using hk)
        (fun j hj => by rw [show i + 1 + j = i + (j + 1) from by omega]; exact hmv (j + 1) (by omega))
        (by rw [show i + 1 + k = i + (k + 1) from by omega]; exact hfail)]
      have hmap : (List.range (k + 1)).map (fun j => SeqEvent.reached (i + j)) =
          SeqEvent.reached i ::
            (List.range k).map (fun j => SeqEvent.reached (i + 1 + j)) := by
        simp only [List.range_succ_eq_map, List.map_cons, List.map_map, Nat.add_zero]
        congr 1
        apply List.map_congr_left
        intro j hj
        simp only [Function.comp_apply]
        congr 1
        omega
      rw [hmap]
      rfl

/-- C9 (modelled from the spec): the sequencer run processes the waypoints
in order, invoking the callback with each reached waypoint's index and
polling until not-running before advancing; when every move succeeds and no
cancellation occurs the callback sequence is the waypoint indices in order
followed by the finished marker and the run ends in Done; a move failure at
index k stops the run in Failed right after the error callback, with
exactly the earlier indices reported; and with the cancellation flag set
from step T on (motion never stopping on its own), the background run
observes the flag at the top of a poll iteration and exits in Done — so
cancel(), which blocks until the background context exits, returns. -/
theorem motion_sequencer_spec :
    (∀ (moveOk statusOk : Nat → Bool) (wps : List Waypoint) (fuel : Nat),
      1 ≤ fuel → (∀ j, moveOk j = true) → (∀ u, statusOk u = true) →
      sequencer_start moveOk (fun _ => false) statusOk (fun _ => false) wps fuel =
        some ((List.range wps.length).map SeqEvent.reached ++ [SeqEvent.finished],
          SeqState.Done)) ∧
    (∀ (moveOk statusOk : Nat → Bool) (wps : List Waypoint) (k fuel : Nat),
      1 ≤ fuel → k < wps.length →
      (∀ j, j < k → moveOk j = true) → moveOk k = false →
      (∀ u, statusOk u = true) →
      sequencer_start moveOk (fun _ => false) statusOk (fun _ => false) wps fuel =
        some ((List.range k).map SeqEvent.reached ++ [SeqEvent.failed],
          SeqState.Failed)) ∧
    (∀ (moveOk statusOk : Nat → Bool) (w : Waypoint) (rest : List Waypoint)
       (T fuel : Nat),
      moveOk 0 = true → (∀ u, statusOk u = true) → T < fuel →
      sequencer_start moveOk (fun u => decide (T ≤ u)) statusOk (fun _ => true)
        (w :: rest) fuel = some ([SeqEvent.reached 0], SeqState.Done)) := by
  refine ⟨?_, ?_, ?_⟩
  · intro moveOk statusOk wps fuel hf hmv hok
    rw [sequencer_start, seqRun_all_success moveOk statusOk fuel hf hmv hok wps 0 0]
    simp
  · intro moveOk statusOk wps k fuel hf hk hmv hfail hok
    rw [sequencer_start,
      seqRun_fail_at moveOk statusOk fuel hf hok wps k 0 0 hk
        (fun j hj => by simpa using hmv j hj) (by simpa using hfail)]
    simp
  · intro moveOk statusOk w rest T fuel hmv hok hT
    obtain ⟨fuel2, rfl⟩ : ∃ f2, fuel = f2 + 1 := ⟨fuel - 1, by omega⟩
    simp only [sequencer_start, seqRun, hmv, Bool.not_true]
    rw [if_neg (by simp)]
    rw [pollLoop_cancel_observed statusOk (fun _ => true) T hok (fun u => rfl)
      (fuel2 + 1) 0 (by omega) (by omega)]

theorem motion_sequencer_spec_witness :
    sequencer_start (fun _ => true) (fun _ => false) (fun _ => true) (fun _ => false)
      [((0 : Int), (0 : Int), (0 : Int), (0 : Int), (0 : Int), (0 : Int), (0 : Int)),
       ((1 : Int), (0 : Int), (0 : Int), (0 : Int), (0 : Int), (0 : Int), (0 : Int))] 3 =
      some ((List.range 2).map SeqEvent.reached ++ [SeqEvent.finished], SeqState.Done) :=
  motion_sequencer_spec.1 (fun _ => true) (fun _ => true)
    [((0 : Int), (0 : Int), (0 : Int), (0 : Int), (0 : Int), (0 : Int), (0 : Int)),
     ((1 : Int), (0 : Int), (0 : Int), (0 : Int), (0 : Int), (0 : Int), (0 : Int))] 3
    (by decide) (fun j => rfl) (fun u => rfl)

end FS100Spec
